import Mathlib

/-!
Verification development for the nifty-5sec-supertrend-scalping trading bot.

Python numbers are modelled by `ℚ` (exact rational arithmetic; the source uses
floats, whose rounding is not modelled), Python lists of candles/values by Lean
lists held MOST-RECENT-FIRST, so Python's `xs[-1]` is the head, `xs[-2]` the
second element and `xs[-100:]` is `List.take 100`.  Warm-up window lists are
therefore built newest-first; the source only takes their sum and length, both
order-independent.  Wall-clock reads (`datetime.now`, `get_ist_time`,
`is_market_open`, ...) and network/database results are passed in explicitly as
environment records, one per loop tick.
-/

/-! ## Definitions -/

/-- Python `max(a, b, c)`. -/
def pyMax3 (a b c : ℚ) : ℚ := max a (max b c)

/-- Python `int(q)`: truncation toward zero. -/
def truncInt (q : ℚ) : ℤ := if 0 ≤ q then ⌊q⌋ else -⌊-q⌋

/-- Python `round(q)`: round-half-to-even to an integer. -/
def pyRound (q : ℚ) : ℤ :=
  let f : ℤ := ⌊q⌋
  let r : ℚ := q - (f : ℚ)
  if r < 1 / 2 then f
  else if 1 / 2 < r then f + 1
  else if f % 2 = 0 then f else f + 1

/-- Python `round(q, 2)`: round-half-to-even to two decimal places. -/
def pyRound2 (q : ℚ) : ℚ := (pyRound (q * 100) : ℚ) / 100

/-- Python `round(q / 0.05) * 0.05`: rounding a price to the 5-paise tick. -/
def roundTick (q : ℚ) : ℚ := (pyRound (q * 20) : ℚ) / 20

/-! ## SuperTrend indicator (src/backend/server.py, class SuperTrend) -/

/-- One OHLC candle as stored in `self.candles` (`{'high','low','close'}`). -/
structure Candle where
  high : ℚ
  low : ℚ
  close : ℚ
deriving DecidableEq

instance : Inhabited Candle := ⟨⟨0, 0, 0⟩⟩

/-- The signal string returned by `add_candle`: "GREEN" or "RED". -/
inductive Signal
  | GREEN
  | RED
deriving DecidableEq

/-- One entry of `self.supertrend_values`. -/
structure STEntry where
  upper : ℚ
  lower : ℚ
  value : ℚ
  direction : ℤ
deriving DecidableEq

/-- The mutable state of a `SuperTrend` object.  Lists are newest-first. -/
structure SuperTrendState where
  period : ℕ
  multiplier : ℚ
  candles : List Candle
  atr_values : List ℚ
  supertrend_values : List STEntry
  direction : ℤ
deriving DecidableEq

/-- `SuperTrend.__init__(period, multiplier)`. -/
def stInit (period : ℕ) (multiplier : ℚ) : SuperTrendState :=
  { period := period, multiplier := multiplier, candles := [], atr_values := [],
    supertrend_values := [], direction := 1 }

/-- True range of the newly appended candle, from the three-way `max` in
`add_candle`; the `if len(self.candles) > 1` guards make the two prev-close
terms `0` when the appended candle is alone, i.e. when the list of previously
stored candles (`oldCandles` here) is empty. -/
def computeTR (high low : ℚ) (oldCandles : List Candle) : ℚ :=
  match oldCandles with
  | p :: _ => pyMax3 (high - low) |high - p.close| |low - p.close|
  | [] => pyMax3 (high - low) 0 0

/-- The per-candle true ranges of a newest-first candle buffer, as computed in
the warm-up loop of `add_candle`: each candle pairs with its predecessor, and
the chronologically first candle (the last element here) contributes
`high - low`. -/
def trList : List Candle → List ℚ
  | [] => []
  | [c] => [c.high - c.low]
  | c :: p :: rest =>
      pyMax3 (c.high - c.low) |c.high - p.close| |c.low - p.close| :: trList (p :: rest)

/-- The initial ATR of `add_candle` (`len(self.atr_values) == 0` branch):
simple average of the true ranges over the window of the last `period`
candles (`range(max(0, len - period), len)`), `0` if the window is empty. -/
def initialATR (candles : List Candle) (period : ℕ) : ℚ :=
  let trs := (trList candles).take period
  if trs.length = 0 then 0 else trs.sum / (trs.length : ℚ)

/-- `SuperTrend.add_candle(high, low, close)` (server.py lines 265-344),
returning the `(value, signal)` output (`none` models `(None, None)`) and the
updated object state.  The final `if` is the ring-buffer trim to the last 100
entries. -/
def addCandle (s : SuperTrendState) (high low close : ℚ) :
    Option (ℚ × Signal) × SuperTrendState :=
  let candles := ({ high := high, low := low, close := close } : Candle) :: s.candles
  if candles.length < s.period then
    (none, { s with candles := candles })
  else
    let tr := computeTR high low s.candles
    let atr :=
      match s.atr_values with
      | [] => initialATR candles s.period
      | a :: _ => (a * ((s.period : ℚ) - 1) + tr) / (s.period : ℚ)
    let atr_values := atr :: s.atr_values
    let hl2 := (high + low) / 2
    let basic_upper := hl2 + s.multiplier * atr
    let basic_lower := hl2 - s.multiplier * atr
    let prev_close := (s.candles.headD default).close
    let final_lower :=
      match s.supertrend_values with
      | [] => basic_lower
      | prev :: _ =>
          if basic_lower > prev.lower ∨ prev_close < prev.lower then basic_lower else prev.lower
    let final_upper :=
      match s.supertrend_values with
      | [] => basic_upper
      | prev :: _ =>
          if basic_upper < prev.upper ∨ prev_close > prev.upper then basic_upper else prev.upper
    let direction : ℤ :=
      match s.supertrend_values with
      | [] => if close > final_upper then 1 else -1
      | prev :: _ =>
          if prev.direction = 1 then (if close < final_lower then -1 else 1)
          else (if close > final_upper then 1 else -1)
    let value := if direction = 1 then final_lower else final_upper
    let st_values : List STEntry :=
      ⟨final_upper, final_lower, value, direction⟩ :: s.supertrend_values
    let signal := if direction = 1 then Signal.GREEN else Signal.RED
    if candles.length > 100 then
      (some (value, signal),
        { s with candles := candles.take 100, atr_values := atr_values.take 100,
                 supertrend_values := st_values.take 100, direction := direction })
    else
      (some (value, signal),
        { s with candles := candles, atr_values := atr_values,
                 supertrend_values := st_values, direction := direction })

/-- `add_candle` with the ring-buffer trim removed but otherwise identical:
the full-history comparator for the refinement claim about the trim. -/
def addCandleNoTrim (s : SuperTrendState) (high low close : ℚ) :
    Option (ℚ × Signal) × SuperTrendState :=
  let candles := ({ high := high, low := low, close := close } : Candle) :: s.candles
  if candles.length < s.period then
    (none, { s with candles := candles })
  else
    let tr := computeTR high low s.candles
    let atr :=
      match s.atr_values with
      | [] => initialATR candles s.period
      | a :: _ => (a * ((s.period : ℚ) - 1) + tr) / (s.period : ℚ)
    let atr_values := atr :: s.atr_values
    let hl2 := (high + low) / 2
    let basic_upper := hl2 + s.multiplier * atr
    let basic_lower := hl2 - s.multiplier * atr
    let prev_close := (s.candles.headD default).close
    let final_lower :=
      match s.supertrend_values with
      | [] => basic_lower
      | prev :: _ =>
          if basic_lower > prev.lower ∨ prev_close < prev.lower then basic_lower else prev.lower
    let final_upper :=
      match s.supertrend_values with
      | [] => basic_upper
      | prev :: _ =>
          if basic_upper < prev.upper ∨ prev_close > prev.upper then basic_upper else prev.upper
    let direction : ℤ :=
      match s.supertrend_values with
      | [] => if close > final_upper then 1 else -1
      | prev :: _ =>
          if prev.direction = 1 then (if close < final_lower then -1 else 1)
          else (if close > final_upper then 1 else -1)
    let value := if direction = 1 then final_lower else final_upper
    let st_values : List STEntry :=
      ⟨final_upper, final_lower, value, direction⟩ :: s.supertrend_values
    let signal := if direction = 1 then Signal.GREEN else Signal.RED
    (some (value, signal),
      { s with candles := candles, atr_values := atr_values,
               supertrend_values := st_values, direction := direction })

/-- Outputs of feeding a chronological candle sequence through `add_candle`. -/
def stRun (s : SuperTrendState) : List Candle → List (Option (ℚ × Signal))
  | [] => []
  | c :: rest =>
      let r := addCandle s c.high c.low c.close
      r.1 :: stRun r.2 rest

/-- Outputs of the same run computed without the ring-buffer trim. -/
def stRunNoTrim (s : SuperTrendState) : List Candle → List (Option (ℚ × Signal))
  | [] => []
  | c :: rest =>
      let r := addCandleNoTrim s c.high c.low c.close
      r.1 :: stRunNoTrim r.2 rest

/-- The indicator state after feeding the first `k` candles of `cs`. -/
def stStateAfter (p : ℕ) (m : ℚ) (cs : List Candle) (k : ℕ) : SuperTrendState :=
  (cs.take k).foldl (fun s c => (addCandle s c.high c.low c.close).2) (stInit p m)

/-- The output `add_candle` returns on candle number `k + 1` of `cs`
(0-indexed `k`). -/
def stOutAt (p : ℕ) (m : ℚ) (cs : List Candle) (k : ℕ) : Option (ℚ × Signal) :=
  (addCandle (stStateAfter p m cs k) (cs.getD k default).high (cs.getD k default).low
    (cs.getD k default).close).1

/-- Chronological true-range sequence of a candle list: the first candle
contributes `high - low`, every later candle the three-way maximum against the
previous close.  This is the specification-side reading of "true ranges over
the window", compared against the source's warm-up computation. -/
def trSeqAux (prev : Candle) : List Candle → List ℚ
  | [] => []
  | c :: rest =>
      pyMax3 (c.high - c.low) |c.high - prev.close| |c.low - prev.close| :: trSeqAux c rest

/-- See `trSeqAux`. -/
def trSeq : List Candle → List ℚ
  | [] => []
  | c :: rest => (c.high - c.low) :: trSeqAux c rest

/-! ## Lemmas about the indicator run -/

/-- One `add_candle` call viewed as a state transformer. -/
def stStep (s : SuperTrendState) (c : Candle) : SuperTrendState :=
  (addCandle s c.high c.low c.close).2

/-- Invariant of the indicator state after the first `k` candles of `cs` have
been fed through `add_candle`, for a configured period between 1 and 100. -/
def Inv1 (p : ℕ) (cs : List Candle) (k : ℕ) (s : SuperTrendState) : Prop :=
  s.period = p ∧
  s.candles.length = min k 100 ∧
  (k ≤ 100 → s.candles = (cs.take k).reverse) ∧
  (k < p → s.atr_values = []) ∧
  (p ≤ k → s.atr_values ≠ []) ∧
  (1 ≤ k → s.candles.headD default = cs.getD (k - 1) default)

/-! ## The ring-buffer trim (C9) -/

/-- Keeping only the most recent 100 entries of each history buffer. -/
def takeState (u : SuperTrendState) : SuperTrendState :=
  { u with candles := u.candles.take 100, atr_values := u.atr_values.take 100,
           supertrend_values := u.supertrend_values.take 100 }

/-- Shape facts that hold of every state reachable by the untrimmed run. -/
def UInv (u : SuperTrendState) : Prop :=
  u.atr_values.length ≤ u.candles.length ∧
  u.supertrend_values.length ≤ u.candles.length ∧
  (u.atr_values = [] → u.candles.length ≤ u.period)

/-! ## Index configuration table (src/backend/indices.py) -/

/-- Python `str.upper()`, modelled on the character list (ASCII keys only in
this table; `String.toUpper` itself walks byte positions, which blocks kernel
evaluation). -/
def pyUpper (s : String) : String := ⟨s.data.map Char.toUpper⟩

/-- Python `str.startswith(pre)`, modelled on the character list. -/
def pyStartsWith (s pre : String) : Bool := pre.data.isPrefixOf s.data

/-- One entry of the `INDICES` table. -/
structure IndexConfig where
  name : String
  security_id : ℕ
  exchange_segment : String
  lot_size : ℕ
  strike_interval : ℕ
  expiry_day : ℕ
  trading_symbol : String
deriving DecidableEq

/-- `INDICES["NIFTY"]`. -/
def niftyConfig : IndexConfig := ⟨"NIFTY 50", 13, "IDX_I", 50, 50, 1, "NIFTY"⟩

/-- The `INDICES` dict (indices.py lines 4-50). -/
def INDICES : List (String × IndexConfig) :=
  [("NIFTY", niftyConfig),
   ("BANKNIFTY", ⟨"BANK NIFTY", 25, "IDX_I", 15, 100, 2, "BANKNIFTY"⟩),
   ("SENSEX", ⟨"SENSEX", 51, "BSE_INDEX", 10, 100, 4, "SENSEX"⟩),
   ("FINNIFTY", ⟨"FINNIFTY", 27, "IDX_I", 25, 50, 1, "FINNIFTY"⟩),
   ("MIDCPNIFTY", ⟨"MIDCAP NIFTY", 442, "IDX_I", 50, 25, 0, "MIDCPNIFTY"⟩)]

/-- `get_index_config(index_name)`:
`INDICES.get(index_name.upper(), INDICES["NIFTY"])`. -/
def get_index_config (index_name : String) : IndexConfig :=
  (INDICES.lookup (pyUpper index_name)).getD niftyConfig

/-- `round_to_strike(price, index_name)`: `round(price / interval) * interval`
with the index's strike interval and Python's banker's rounding. -/
def round_to_strike (price : ℚ) (index_name : String) : ℤ :=
  let cfg := get_index_config index_name
  pyRound (price / (cfg.strike_interval : ℚ)) * (cfg.strike_interval : ℤ)

/-! ## Trading bot state machine (src/backend/trading_bot.py)

The loop body is modelled tick by tick.  Wall-clock reads, broker responses
and the random paper-mode jitter are supplied through environment records;
database writes, logging and the WebSocket broadcast carry no bot state and
are dropped.  The Dhan client is assumed initialized: `run_loop` only starts
after `initialize_dhan` succeeds. -/

/-- Option side of a position: `'CE'` or `'PE'`. -/
inductive OptionType
  | CE
  | PE
deriving DecidableEq

/-- The string stored in the position's `option_type` field. -/
def otString : OptionType → String
  | OptionType.CE => "CE"
  | OptionType.PE => "PE"

/-- `self.current_position` dict. -/
structure Position where
  trade_id : String
  option_type : OptionType
  strike : ℤ
  expiry : String
  security_id : String
  index_name : String
  entry_time : String
deriving DecidableEq

/-- The configuration keys of `config` the loop reads. -/
structure Config where
  order_qty : ℕ
  max_trades_per_day : ℕ
  daily_max_loss : ℚ
  trail_start_profit : ℚ
  trail_step : ℚ
  candle_interval : ℚ
  selected_index : String
deriving DecidableEq

/-- `config['order_qty'] * index_config['lot_size']`. -/
def qtyOf (cfg : Config) : ℚ :=
  ((cfg.order_qty * (get_index_config cfg.selected_index).lot_size : ℕ) : ℚ)

/-- The mutable bot state: `TradingBot` attributes, the `bot_state` dict
fields the loop touches (prefixed `bs_` where they mirror an attribute), and
the loop-local candle accumulator (`candle_start_time`, `high`, `low`,
`close`; `low : Option ℚ` with `none` standing for `float('inf')`). -/
structure BotState where
  mode_paper : Bool
  current_position : Option Position
  entry_price : ℚ
  trailing_sl : Option ℚ
  highest_profit : ℚ
  last_exit_candle_time : Option ℚ
  bs_current_position : Option Position
  bs_entry_price : ℚ
  bs_trailing_sl : Option ℚ
  daily_trades : ℕ
  daily_pnl : ℚ
  daily_max_loss_triggered : Bool
  max_drawdown : ℚ
  index_ltp : ℚ
  current_option_ltp : ℚ
  supertrend_value : ℚ
  last_signal : Option Signal
  supertrend : SuperTrendState
  candle_start_time : ℚ
  acc_high : ℚ
  acc_low : Option ℚ
  acc_close : ℚ
deriving DecidableEq

/-- Per-entry environment: what `enter_position` obtains from the wall clock
and the broker on one call. -/
structure EntryEnv where
  can_take_new_trade : Bool
  dhan_expiry : Option String
  fallback_expiry : String
  trade_id : String
  entry_time : String
  security_id : String
  fetched_option_ltp : ℚ
  order_ok : Bool
  filled_price : ℚ
deriving DecidableEq

/-- Per-tick environment of `run_loop`: wall-clock predicates, fetched prices,
the paper-mode jitter and the nested entry environment. -/
structure TickEnv where
  ist_hour : ℕ
  ist_minute : ℕ
  force_squareoff : Bool
  market_open : Bool
  squareoff_order_ok : Bool
  fetched_index_ltp : ℚ
  fetched_option_ltp : ℚ
  now : ℚ
  sim_tick : ℚ
  entry : EntryEnv
deriving DecidableEq

/-- `TradingBot.close_position(exit_price, pnl, reason)`
(trading_bot.py lines 96-129). -/
def close_position (cfg : Config) (s : BotState) (exit_price pnl : ℚ)
    (reason : String) : BotState :=
  match s.current_position with
  | none => s
  | some _ =>
      let daily_pnl := s.daily_pnl + pnl
      { s with
        daily_pnl := daily_pnl,
        bs_current_position := none,
        bs_trailing_sl := none,
        bs_entry_price := 0,
        daily_max_loss_triggered :=
          if daily_pnl < -cfg.daily_max_loss then true else s.daily_max_loss_triggered,
        max_drawdown := if pnl < 0 ∧ |pnl| > s.max_drawdown then |pnl| else s.max_drawdown,
        current_position := none,
        entry_price := 0,
        trailing_sl := none,
        highest_profit := 0 }

/-- `TradingBot.check_trailing_sl(current_ltp)` (trading_bot.py lines
300-316): the ratchet only; it never exits. -/
def check_trailing_sl (cfg : Config) (s : BotState) (current_ltp : ℚ) : BotState :=
  match s.current_position with
  | none => s
  | some _ =>
      let profit_points := current_ltp - s.entry_price
      let highest :=
        if profit_points > s.highest_profit then profit_points else s.highest_profit
      let s := { s with highest_profit := highest }
      if profit_points ≥ cfg.trail_start_profit then
        let trail_levels : ℤ :=
          truncInt ((highest - cfg.trail_start_profit) / cfg.trail_step)
        let new_sl := s.entry_price + (trail_levels : ℚ) * cfg.trail_step
        match s.trailing_sl with
        | none => { s with trailing_sl := some new_sl, bs_trailing_sl := some new_sl }
        | some old =>
            if new_sl > old then
              { s with trailing_sl := some new_sl, bs_trailing_sl := some new_sl }
            else s
      else s

/-- `TradingBot.check_trailing_sl_on_close(current_ltp)` (trading_bot.py
lines 318-333).  The breach guard `if self.trailing_sl and current_ltp <=
self.trailing_sl` uses Python truthiness: a stop of exactly 0 is falsy. -/
def check_trailing_sl_on_close (cfg : Config) (s : BotState) (current_ltp : ℚ) :
    Bool × BotState :=
  match s.current_position with
  | none => (false, s)
  | some _ =>
      let s := check_trailing_sl cfg s current_ltp
      match s.trailing_sl with
      | some sl =>
          if sl ≠ 0 ∧ current_ltp ≤ sl then
            (true, close_position cfg s current_ltp
              ((current_ltp - s.entry_price) * qtyOf cfg) "Trailing SL Hit")
          else (false, s)
      | none => (false, s)

/-- The tail of `enter_position` (trading_bot.py lines 458-491): record the
new position, reset the trailing state, bump the day's trade count. -/
def finish_entry (cfg : Config) (env : EntryEnv) (s : BotState)
    (option_type : OptionType) (strike : ℤ) (expiry security_id : String)
    (entry_price : ℚ) : BotState :=
  let pos : Position :=
    ⟨env.trade_id, option_type, strike, expiry, security_id, cfg.selected_index,
      env.entry_time⟩
  { s with
    current_position := some pos,
    entry_price := entry_price,
    trailing_sl := none,
    highest_profit := 0,
    bs_current_position := some pos,
    bs_entry_price := entry_price,
    daily_trades := s.daily_trades + 1,
    current_option_ltp := entry_price }

/-- `TradingBot.enter_position(option_type, strike, index_ltp)`
(trading_bot.py lines 379-491).  The expiry fallback date arithmetic and
`strftime` are wall-clock work abstracted into `env.fallback_expiry`; broker
lookups and the order result come from `env`. -/
def enter_position (cfg : Config) (env : EntryEnv) (s : BotState)
    (option_type : OptionType) (strike : ℤ) (index_ltp : ℚ) : BotState :=
  let expiry :=
    match env.dhan_expiry with
    | some e => e
    | none => env.fallback_expiry
  let security_id₀ := env.security_id
  let entry_price₀ : ℚ :=
    if security_id₀ ≠ "" ∧ env.fetched_option_ltp > 0 then
      pyRound2 (roundTick env.fetched_option_ltp)
    else 0
  if s.mode_paper then
    let security_id :=
      if security_id₀ = "" then
        "SIM_" ++ cfg.selected_index ++ "_" ++ toString strike ++ "_" ++ otString option_type
      else security_id₀
    let entry_price :=
      if entry_price₀ ≤ 0 then
        let distance := |index_ltp - (strike : ℚ)|
        let intrinsic :=
          if option_type = OptionType.CE then max 0 (index_ltp - (strike : ℚ))
          else max 0 ((strike : ℚ) - index_ltp)
        let time_value := 150 * max 0 (1 - distance / 500)
        pyRound2 (roundTick (intrinsic + time_value))
      else entry_price₀
    finish_entry cfg env s option_type strike expiry security_id entry_price
  else
    if security_id₀ = "" then s
    else if ¬env.order_ok then s
    else
      let entry_price := if env.filled_price > 0 then env.filled_price else entry_price₀
      finish_entry cfg env s option_type strike expiry security_id₀ entry_price

/-- `TradingBot.process_signal_on_close(signal, index_ltp)` (trading_bot.py
lines 335-377).  Returns the `exited` flag and the updated state. -/
def process_signal_on_close (cfg : Config) (env : EntryEnv) (s : BotState)
    (signal : Signal) (index_ltp : ℚ) : Bool × BotState :=
  let qty := qtyOf cfg
  match s.current_position with
  | some pos =>
      if pos.option_type = OptionType.CE ∧ signal = Signal.RED then
        (true, close_position cfg s s.current_option_ltp
          ((s.current_option_ltp - s.entry_price) * qty) "SuperTrend Reversal")
      else if pos.option_type = OptionType.PE ∧ signal = Signal.GREEN then
        (true, close_position cfg s s.current_option_ltp
          ((s.current_option_ltp - s.entry_price) * qty) "SuperTrend Reversal")
      else (false, s)
  | none =>
      if ¬env.can_take_new_trade then (false, s)
      else if s.daily_trades ≥ cfg.max_trades_per_day then (false, s)
      else
        let option_type := if signal = Signal.RED then OptionType.PE else OptionType.CE
        let atm_strike := round_to_strike index_ltp cfg.selected_index
        (false, enter_position cfg env s option_type atm_strike index_ltp)

/-- `TradingBot.squareoff()` (trading_bot.py lines 70-94). -/
def squareoff (cfg : Config) (orderOk : Bool) (s : BotState) : BotState :=
  match s.current_position with
  | none => s
  | some _ =>
      let qty := qtyOf cfg
      if s.mode_paper then
        close_position cfg s s.current_option_ltp
          ((s.current_option_ltp - s.entry_price) * qty) "Force Square-off"
      else if orderOk then
        close_position cfg s s.current_option_ltp
          ((s.current_option_ltp - s.entry_price) * qty) "Force Square-off"
      else s

/-- The market-data block of `run_loop` (trading_bot.py lines 164-194):
fetch index (and option) LTP, then fold the index price into the candle
accumulator. -/
def fetch_market_data (env : TickEnv) (s : BotState) : BotState :=
  let useOption : Bool :=
    match s.current_position with
    | some pos => (pos.security_id != "") && !(pyStartsWith pos.security_id "SIM_")
    | none => false
  let s :=
    if useOption then
      let s :=
        if env.fetched_index_ltp > 0 then { s with index_ltp := env.fetched_index_ltp } else s
      if env.fetched_option_ltp > 0 then
        { s with current_option_ltp := pyRound2 (roundTick env.fetched_option_ltp) }
      else s
    else
      if env.fetched_index_ltp > 0 then { s with index_ltp := env.fetched_index_ltp } else s
  if s.index_ltp > 0 then
    { s with
      acc_high := if s.index_ltp > s.acc_high then s.index_ltp else s.acc_high,
      acc_low :=
        match s.acc_low with
        | none => some s.index_ltp
        | some lo => if s.index_ltp < lo then some s.index_ltp else some lo,
      acc_close := s.index_ltp }
  else s

/-- The signal-handling body of the candle-complete block (trading_bot.py
lines 204-230, entered when `if st_value and signal` holds): check the
trailing stop on the candle close, apply the cool-down gate
(`last_exit_candle_time`), then the exit/entry rules, recording the exit
candle time. -/
def signal_step (cfg : Config) (env : TickEnv) (s : BotState) (sig : Signal) : BotState :=
  let s :=
    if s.current_position.isSome then
      let rr := check_trailing_sl_on_close cfg s s.current_option_ltp
      if rr.1 then { rr.2 with last_exit_candle_time := some env.now } else rr.2
    else s
  let can_trade : Bool :=
    match s.last_exit_candle_time with
    | some t => !(decide (env.now - t < cfg.candle_interval))
    | none => true
  if can_trade then
    let pr := process_signal_on_close cfg env.entry s sig s.acc_close
    if pr.1 then { pr.2 with last_exit_candle_time := some env.now } else pr.2
  else s

/-- The candle-complete block of `run_loop` (trading_bot.py lines 196-234):
close the candle, advance the indicator, store value and signal, and hand the
signal to `signal_step`; finally reset the accumulator.  The
`if st_value and signal` truthiness test skips a `None` output and a `0.0`
value; `current_candle_time` and the accumulator reset both read
`datetime.now()`, modelled as the single tick instant `env.now`. -/
def boundary_step (cfg : Config) (env : TickEnv) (s : BotState) : BotState :=
  let s' :=
    match s.acc_low with
    | none => s
    | some lo =>
        if s.acc_high > 0 then
          let r := addCandle s.supertrend s.acc_high lo s.acc_close
          let s := { s with supertrend := r.2 }
          match r.1 with
          | none => s
          | some (v, sig) =>
              if v ≠ 0 then
                signal_step cfg env
                  { s with supertrend_value := v, last_signal := some sig } sig
              else s
        else s
  { s' with candle_start_time := env.now, acc_high := 0, acc_low := none, acc_close := 0 }

/-- The paper-mode option price simulation of `run_loop` (trading_bot.py
lines 236-264). -/
def paper_sim (s : BotState) (tick : ℚ) : BotState :=
  match s.current_position with
  | none => s
  | some pos =>
      if pyStartsWith pos.security_id "SIM_" then
        if pos.strike ≠ 0 ∧ s.index_ltp ≠ 0 then
          let strike : ℚ := (pos.strike : ℚ)
          let distance := |s.index_ltp - strike|
          let intrinsic :=
            if pos.option_type = OptionType.CE then max 0 (s.index_ltp - strike)
            else max 0 (strike - s.index_ltp)
          let time_value := 150 * max 0 (1 - distance / 500)
          let simulated := roundTick (intrinsic + time_value + tick)
          { s with current_option_ltp := max (1 / 20) (pyRound2 simulated) }
        else s
      else s

/-- The tail of one `run_loop` iteration after the daily reset and the forced
square-off (trading_bot.py lines 150-264): market-hours and loss-limit gates,
market data, candle boundary, paper simulation. -/
def loop_tail (cfg : Config) (env : TickEnv) (s : BotState) : BotState :=
  if ¬env.market_open then s
  else if s.daily_max_loss_triggered then s
  else
    let s := fetch_market_data env s
    let s :=
      if env.now - s.candle_start_time ≥ cfg.candle_interval then boundary_step cfg env s
      else s
    paper_sim s env.sim_tick

/-- The daily reset of counters at 09:15 IST (trading_bot.py lines 142-149). -/
def reset_state (s : BotState) : BotState :=
  { s with daily_trades := 0, daily_pnl := 0, daily_max_loss_triggered := false,
           max_drawdown := 0, last_exit_candle_time := none }

/-- One iteration of `TradingBot.run_loop` (trading_bot.py lines 137-269):
daily reset at 9:15 IST, forced square-off, then `loop_tail`. -/
def loop_step (cfg : Config) (env : TickEnv) (s : BotState) : BotState :=
  let s := if env.ist_hour = 9 ∧ env.ist_minute = 15 then reset_state s else s
  let s :=
    if env.force_squareoff ∧ s.current_position.isSome then
      squareoff cfg env.squareoff_order_ok s
    else s
  loop_tail cfg env s

/-- `TradingBot.check_trailing_sl(current_ltp)` of the standalone server
(server.py lines 767-791): the same ratchet as the modular bot, but followed
inline by the breach check, with `qty = config['order_qty']` (no lot-size
multiplication in server.py). -/
def server_check_trailing_sl (cfg : Config) (s : BotState) (current_ltp : ℚ) : BotState :=
  match s.current_position with
  | none => s
  | some _ =>
      let s := check_trailing_sl cfg s current_ltp
      match s.trailing_sl with
      | some sl =>
          if sl ≠ 0 ∧ current_ltp ≤ sl then
            close_position cfg s current_ltp
              ((current_ltp - s.entry_price) * (cfg.order_qty : ℚ)) "Trailing SL Hit"
          else s
      | none => s

/-- The per-tick position-update block of the standalone server's `run_loop`
(server.py lines 623-632): on every tick with an open position, a security id
and a positive fetched option price, store the price and run
`check_trailing_sl` — independent of any candle boundary. -/
def server_tick_position_update (cfg : Config) (s : BotState)
    (fetched_option_ltp : ℚ) : BotState :=
  match s.current_position with
  | none => s
  | some pos =>
      if pos.security_id ≠ "" then
        if fetched_option_ltp > 0 then
          server_check_trailing_sl cfg { s with current_option_ltp := fetched_option_ltp }
            fetched_option_ltp
        else s
      else s

def baseState : BotState :=
  { mode_paper := true, current_position := none, entry_price := 0, trailing_sl := none,
    highest_profit := 0, last_exit_candle_time := none, bs_current_position := none,
    bs_entry_price := 0, bs_trailing_sl := none, daily_trades := 0, daily_pnl := 0,
    daily_max_loss_triggered := false, max_drawdown := 0, index_ltp := 0,
    current_option_ltp := 0, supertrend_value := 0, last_signal := none,
    supertrend := stInit 7 4, candle_start_time := 0, acc_high := 0, acc_low := none,
    acc_close := 0 }

def samplePosition : Position :=
  ⟨"T1", OptionType.CE, 100, "2026-01-01", "123", "NIFTY", "t0"⟩

def sampleConfig : Config :=
  { order_qty := 1, max_trades_per_day := 5, daily_max_loss := 2000,
    trail_start_profit := 10, trail_step := 5, candle_interval := 5,
    selected_index := "NIFTY" }

/-- Once the stop is set, it equals
`entry_price + trail_step * floor((highest_profit - trail_start_profit) / trail_step)`
and the highest profit has reached the activation threshold. -/
def TrailInv (cfg : Config) (s : BotState) : Prop :=
  ∀ v, s.trailing_sl = some v →
    v = s.entry_price +
        cfg.trail_step * ((⌊(s.highest_profit - cfg.trail_start_profit) / cfg.trail_step⌋ : ℤ) : ℚ) ∧
    cfg.trail_start_profit ≤ s.highest_profit

def c4_s0 : BotState :=
  { baseState with current_position := some samplePosition, entry_price := 50 }

def c4_r1 : Bool × BotState := check_trailing_sl_on_close sampleConfig c4_s0 60

def c4_r2 : Bool × BotState := check_trailing_sl_on_close sampleConfig c4_r1.2 67

def c4_s3 : BotState := check_trailing_sl sampleConfig c4_r2.2 53

def c4_r4 : Bool × BotState := check_trailing_sl_on_close sampleConfig c4_s3 54

def sampleEntryEnv : EntryEnv :=
  { can_take_new_trade := true, dhan_expiry := some "2026-01-01",
    fallback_expiry := "2026-01-01", trade_id := "T1", entry_time := "t0",
    security_id := "", fetched_option_ltp := 0, order_ok := true, filled_price := 0 }

def sampleTickEnv : TickEnv :=
  { ist_hour := 10, ist_minute := 0, force_squareoff := false, market_open := true,
    squareoff_order_ok := true, fetched_index_ltp := 0, fetched_option_ltp := 0,
    now := 0, sim_tick := 0, entry := sampleEntryEnv }

def c5_s : BotState := { baseState with current_position := some samplePosition }

def c6_open1 : BotState :=
  { baseState with
      current_position := some samplePosition
      entry_price := 100
      current_option_ltp := 76 }

def c6_open2 : BotState :=
  { close_position sampleConfig c6_open1 76 (-1200) "Trailing SL Hit" with
      current_position := some samplePosition
      entry_price := 100
      current_option_ltp := 82 }

def c6_flagged : BotState := { baseState with daily_max_loss_triggered := true }

def c7_state : BotState :=
  { baseState with
      last_exit_candle_time := some 0
      supertrend := stInit 1 4 }

def c7_env : TickEnv :=
  { ist_hour := 10, ist_minute := 0, force_squareoff := false, market_open := true,
    squareoff_order_ok := true, fetched_index_ltp := 100, fetched_option_ltp := 0,
    now := 5, sim_tick := 0, entry := sampleEntryEnv }

def c7_benv : TickEnv :=
  { ist_hour := 10, ist_minute := 0, force_squareoff := false, market_open := true,
    squareoff_order_ok := true, fetched_index_ltp := 100, fetched_option_ltp := 0,
    now := 3, sim_tick := 0, entry := sampleEntryEnv }

def c8_s : BotState :=
  { baseState with
      current_position := some samplePosition
      entry_price := 100
      candle_start_time := 0 }

def c8_env : TickEnv :=
  { ist_hour := 10, ist_minute := 0, force_squareoff := false, market_open := true,
    squareoff_order_ok := true, fetched_index_ltp := 0, fetched_option_ltp := 130,
    now := 2, sim_tick := 0, entry := sampleEntryEnv }

/-! ## Theorems -/

theorem truncInt_of_nonneg {q : ℚ} (h : 0 ≤ q) : truncInt q = ⌊q⌋ := by
  simp [truncInt, h]

theorem stStateAfter_succ (p : ℕ) (m : ℚ) (cs : List Candle) (k : ℕ) (hk : k < cs.length) :
    stStateAfter p m cs (k + 1) = stStep (stStateAfter p m cs k) (cs.getD k default) := by
  unfold stStateAfter stStep
  rw [List.take_succ, List.foldl_append]
  have h1 : cs[k]? = some cs[k] := List.getElem?_eq_getElem hk
  have h2 : cs.getD k default = cs[k] := by
    simp [List.getD, h1]
  simp [h1, h2]

theorem getLastD_cons_eq {α} (x : α) (xs : List α) (d : α) :
    (x :: xs).getLastD d = xs.getLastD x := by
  cases xs with
  | nil => simp [List.getLastD_eq_getLast?]
  | cons y ys =>
      rw [List.getLastD_eq_getLast?, List.getLastD_eq_getLast?, List.getLast?_cons_cons]
      have hs : (y :: ys).getLast?.isSome := by
        rw [List.getLast?_isSome]
        simp
      obtain ⟨a, ha⟩ := Option.isSome_iff_exists.mp hs
      rw [ha]
      rfl

theorem trSeqAux_append (prev : Candle) (l : List Candle) (c : Candle) :
    trSeqAux prev (l ++ [c]) = trSeqAux prev l ++
      [pyMax3 (c.high - c.low) |c.high - (l.getLastD prev).close|
        |c.low - (l.getLastD prev).close|] := by
  induction l generalizing prev with
  | nil => simp [trSeqAux]
  | cons x xs ih => rw [List.cons_append, trSeqAux, trSeqAux, ih, getLastD_cons_eq]; simp

theorem trSeq_append (l : List Candle) (c : Candle) (h : l ≠ []) :
    trSeq (l ++ [c]) = trSeq l ++
      [pyMax3 (c.high - c.low) |c.high - (l.getLastD default).close|
        |c.low - (l.getLastD default).close|] := by
  cases l with
  | nil => exact absurd rfl h
  | cons x xs => rw [List.cons_append, trSeq, trSeq, trSeqAux_append, getLastD_cons_eq]; simp

theorem getLastD_reverse {α} [Inhabited α] (l : List α) (d : α) :
    l.reverse.getLastD d = l.headD d := by
  cases l with
  | nil => simp
  | cons x xs => simp [List.getLastD_concat]

theorem trSeq_length (l : List Candle) : (trSeq l).length = l.length := by
  cases l with
  | nil => simp [trSeq]
  | cons x xs =>
      have : ∀ (prev : Candle) (m : List Candle), (trSeqAux prev m).length = m.length := by
        intro prev m
        induction m generalizing prev with
        | nil => simp [trSeqAux]
        | cons y ys ih => simp [trSeqAux, ih]
      simp [trSeq, this]

theorem trList_eq_trSeq_reverse : ∀ l : List Candle, trList l = (trSeq l.reverse).reverse := by
  intro l
  induction l using trList.induct with
  | case1 => simp [trList, trSeq]
  | case2 c => simp [trList, trSeq, trSeqAux]
  | case3 c p rest ih =>
      have hne : (p :: rest).reverse ≠ [] := by simp
      have : (c :: p :: rest).reverse = (p :: rest).reverse ++ [c] := by simp
      rw [trList, ih, this, trSeq_append _ _ hne]
      simp [getLastD_reverse]

/-- The warm-up average over a full `period`-length reversed buffer equals the
chronological mean of true ranges. -/
theorem initialATR_reverse (l : List Candle) (p : ℕ) (hp : 1 ≤ p) (hl : l.length = p) :
    initialATR l.reverse p = (trSeq l).sum / (p : ℚ) := by
  unfold initialATR
  rw [trList_eq_trSeq_reverse, List.reverse_reverse]
  have hlen : (trSeq l).length = p := by rw [trSeq_length, hl]
  have htake : (trSeq l).reverse.take p = (trSeq l).reverse := by
    apply List.take_of_length_le
    simp [hlen]
  rw [htake]
  have hne : ¬((trSeq l).reverse.length = 0) := by simp [hlen]; omega
  have hp0 : ¬(p = 0) := by omega
  simp only [List.length_reverse, hlen, hp0, if_false, List.sum_reverse]

theorem addCandle_warmup (s : SuperTrendState) (hi lo cl : ℚ)
    (h : s.candles.length + 1 < s.period) :
    addCandle s hi lo cl =
      (none, { s with candles := ⟨hi, lo, cl⟩ :: s.candles }) := by
  rcases s with ⟨p, m, cs, atrs, sts, d⟩
  simp only [addCandle, List.length_cons]
  rw [if_pos h]

theorem addCandle_out_isSome (s : SuperTrendState) (hi lo cl : ℚ)
    (h : ¬(s.candles.length + 1 < s.period)) :
    (addCandle s hi lo cl).1.isSome := by
  rcases s with ⟨p, m, cs, atrs, sts, d⟩
  simp only [addCandle, List.length_cons]
  rw [if_neg h]
  split <;> simp

theorem addCandle_period (s : SuperTrendState) (hi lo cl : ℚ) :
    (addCandle s hi lo cl).2.period = s.period := by
  rcases s with ⟨p, m, cs, atrs, sts, d⟩
  simp only [addCandle, List.length_cons]
  split
  · rfl
  · split <;> rfl

theorem addCandle_multiplier (s : SuperTrendState) (hi lo cl : ℚ) :
    (addCandle s hi lo cl).2.multiplier = s.multiplier := by
  rcases s with ⟨p, m, cs, atrs, sts, d⟩
  simp only [addCandle, List.length_cons]
  split
  · rfl
  · split <;> rfl

theorem addCandle_atr_emit (s : SuperTrendState) (hi lo cl : ℚ)
    (h : ¬(s.candles.length + 1 < s.period)) :
    (addCandle s hi lo cl).2.atr_values.headD 0 =
      (match s.atr_values with
       | [] => initialATR (⟨hi, lo, cl⟩ :: s.candles) s.period
       | a :: _ => (a * ((s.period : ℚ) - 1) + computeTR hi lo s.candles) / (s.period : ℚ)) ∧
    (addCandle s hi lo cl).2.atr_values ≠ [] := by
  rcases s with ⟨p, m, cs, atrs, sts, d⟩
  rcases atrs with _ | ⟨a, t⟩ <;>
  · simp only [addCandle, List.length_cons]
    rw [if_neg h]
    split <;> constructor <;> simp [List.take_succ_cons]

theorem addCandle_candles_emit (s : SuperTrendState) (hi lo cl : ℚ)
    (h : ¬(s.candles.length + 1 < s.period)) :
    (addCandle s hi lo cl).2.candles =
      if s.candles.length + 1 > 100 then (⟨hi, lo, cl⟩ :: s.candles).take 100
      else ⟨hi, lo, cl⟩ :: s.candles := by
  rcases s with ⟨p, m, cs, atrs, sts, d⟩
  simp only [addCandle, List.length_cons]
  rw [if_neg h]
  split
  · rename_i htrim
    simp [htrim]
  · rename_i htrim
    simp [htrim]

theorem take_succ_reverse {α} [Inhabited α] (cs : List α) (k : ℕ) (hk : k < cs.length) :
    (cs.take (k + 1)).reverse = cs.getD k default :: (cs.take k).reverse := by
  rw [List.take_succ]
  have h1 : cs[k]? = some cs[k] := List.getElem?_eq_getElem hk
  have h2 : cs.getD k default = cs[k] := by simp [List.getD, h1]
  simp [h1, h2]

theorem Inv1_step (p : ℕ) (cs : List Candle) (k : ℕ) (s : SuperTrendState)
    (hp : 1 ≤ p) (hp' : p ≤ 100) (hk : k < cs.length) (h : Inv1 p cs k s) :
    Inv1 p cs (k + 1) (stStep s (cs.getD k default)) := by
  obtain ⟨hper, hlen, hpre, hatrE, hatrN, hhead⟩ := h
  have hceta : (⟨(cs.getD k default).high, (cs.getD k default).low,
      (cs.getD k default).close⟩ : Candle) = cs.getD k default := rfl
  by_cases hw : s.candles.length + 1 < s.period
  · -- warm-up branch: the candle is recorded, nothing else changes
    rw [hper, hlen] at hw
    have hklt : k + 1 < p := by omega
    have hstep : stStep s (cs.getD k default) =
        { s with candles := cs.getD k default :: s.candles } := by
      unfold stStep
      rw [addCandle_warmup s _ _ _ (by rw [hper, hlen]; omega)]
    rw [hstep]
    refine ⟨hper, ?_, ?_, ?_, ?_, ?_⟩
    · simp only [List.length_cons, hlen]
      omega
    · intro h100
      have : s.candles = (cs.take k).reverse := hpre (by omega)
      rw [this, ← take_succ_reverse cs k hk]
    · intro _
      exact hatrE (by omega)
    · intro hle
      omega
    · intro _
      simp
  · -- emission branch
    rw [hper, hlen] at hw
    have hpk : p ≤ k + 1 := by omega
    have hw' : ¬(s.candles.length + 1 < s.period) := by rw [hper, hlen]; omega
    have hcand := addCandle_candles_emit s (cs.getD k default).high (cs.getD k default).low
      (cs.getD k default).close hw'
    rw [hceta] at hcand
    have hatr := addCandle_atr_emit s (cs.getD k default).high (cs.getD k default).low
      (cs.getD k default).close hw'
    refine ⟨by rw [stStep, addCandle_period, hper], ?_, ?_, ?_, ?_, ?_⟩
    · rw [stStep, hcand]
      split
      · rename_i htrim
        simp [List.length_take, List.length_cons, hlen]
        omega
      · rename_i htrim
        simp [List.length_cons, hlen]
        omega
    · intro h100
      have hk99 : s.candles.length + 1 ≤ 100 := by rw [hlen]; omega
      rw [stStep, hcand, if_neg (by omega)]
      have : s.candles = (cs.take k).reverse := hpre (by omega)
      rw [this, ← take_succ_reverse cs k hk]
    · intro hlt
      omega
    · intro _
      exact hatr.2
    · intro _
      rw [stStep, hcand]
      split
      · rename_i htrim
        have : s.candles.length + 1 ≥ 1 := by omega
        simp [List.take_succ_cons]
      · simp

theorem Inv1_stStateAfter (p : ℕ) (m : ℚ) (cs : List Candle) (hp : 1 ≤ p) (hp' : p ≤ 100) :
    ∀ k, k ≤ cs.length → Inv1 p cs k (stStateAfter p m cs k) := by
  intro k
  induction k with
  | zero =>
      intro _
      refine ⟨rfl, by simp [stStateAfter, stInit], by simp [stStateAfter, stInit],
        fun _ => rfl, fun h0 => absurd h0 (by omega), fun h1 => absurd h1 (by omega)⟩
  | succ n ih =>
      intro hle
      have hn : n < cs.length := by omega
      rw [stStateAfter_succ p m cs n hn]
      exact Inv1_step p cs n _ hp hp' hn (ih (by omega))

theorem stOutAt_warmup_none (p : ℕ) (m : ℚ) (cs : List Candle) (i : ℕ)
    (hp : 1 ≤ p) (hp' : p ≤ 100) (hi : i < cs.length) (hwarm : i + 1 < p) :
    stOutAt p m cs i = none := by
  obtain ⟨hper, hlen, -, -, -, -⟩ := Inv1_stStateAfter p m cs hp hp' i (le_of_lt hi)
  have hw : (stStateAfter p m cs i).candles.length + 1 < (stStateAfter p m cs i).period := by
    rw [hper, hlen]
    omega
  unfold stOutAt
  rw [addCandle_warmup _ _ _ _ hw]

theorem stOutAt_first_emission (p : ℕ) (m : ℚ) (cs : List Candle)
    (hp : 1 ≤ p) (hp' : p ≤ 100) (hcs : p ≤ cs.length) :
    (stOutAt p m cs (p - 1)).isSome ∧
    (stStateAfter p m cs p).atr_values.headD 0 = (trSeq (cs.take p)).sum / (p : ℚ) := by
  have h1 : p - 1 < cs.length := by omega
  obtain ⟨hper, hlen, hpre, hatrE, -, -⟩ :=
    Inv1_stStateAfter p m cs hp hp' (p - 1) (by omega)
  have hw : ¬((stStateAfter p m cs (p - 1)).candles.length + 1 <
      (stStateAfter p m cs (p - 1)).period) := by
    rw [hper, hlen]
    omega
  constructor
  · exact addCandle_out_isSome _ _ _ _ hw
  · have hp1 : p - 1 + 1 = p := by omega
    have hsucc : stStateAfter p m cs p =
        stStep (stStateAfter p m cs (p - 1)) (cs.getD (p - 1) default) := by
      have h := stStateAfter_succ p m cs (p - 1) h1
      rwa [hp1] at h
    have hatr := (addCandle_atr_emit _ (cs.getD (p - 1) default).high
      (cs.getD (p - 1) default).low (cs.getD (p - 1) default).close hw).1
    rw [hatrE (by omega)] at hatr
    rw [hsucc, stStep, hatr]
    have hEq : (⟨(cs.getD (p - 1) default).high, (cs.getD (p - 1) default).low,
        (cs.getD (p - 1) default).close⟩ : Candle) :: (stStateAfter p m cs (p - 1)).candles =
        (cs.take p).reverse := by
      rw [hpre (by omega), ← take_succ_reverse cs (p - 1) h1, hp1]
    rw [hEq, hper]
    exact initialATR_reverse (cs.take p) p hp (by rw [List.length_take]; omega)

theorem stOutAt_wilder_step (p : ℕ) (m : ℚ) (cs : List Candle) (k : ℕ)
    (hp : 1 ≤ p) (hp' : p ≤ 100) (hpk : p ≤ k) (hk : k < cs.length) :
    (stOutAt p m cs k).isSome ∧
    (stStateAfter p m cs (k + 1)).atr_values.headD 0 =
      ((stStateAfter p m cs k).atr_values.headD 0 * ((p : ℚ) - 1) +
        pyMax3 ((cs.getD k default).high - (cs.getD k default).low)
          |(cs.getD k default).high - (cs.getD (k - 1) default).close|
          |(cs.getD k default).low - (cs.getD (k - 1) default).close|) / (p : ℚ) := by
  obtain ⟨hper, hlen, -, -, hatrN, hhead⟩ :=
    Inv1_stStateAfter p m cs hp hp' k (le_of_lt hk)
  have hw : ¬((stStateAfter p m cs k).candles.length + 1 <
      (stStateAfter p m cs k).period) := by
    rw [hper, hlen]
    omega
  constructor
  · exact addCandle_out_isSome _ _ _ _ hw
  · have hsucc := stStateAfter_succ p m cs k hk
    have hatr := (addCandle_atr_emit _ (cs.getD k default).high
      (cs.getD k default).low (cs.getD k default).close hw).1
    obtain ⟨a, t, hat⟩ : ∃ a t, (stStateAfter p m cs k).atr_values = a :: t := by
      rcases hA : (stStateAfter p m cs k).atr_values with _ | ⟨a, t⟩
      · exact absurd hA (hatrN hpk)
      · exact ⟨a, t, rfl⟩
    obtain ⟨x, xs, hx⟩ : ∃ x xs, (stStateAfter p m cs k).candles = x :: xs := by
      rcases hC : (stStateAfter p m cs k).candles with _ | ⟨x, xs⟩
      · rw [hC] at hlen
        simp at hlen
        omega
      · exact ⟨x, xs, rfl⟩
    have hxval : x = cs.getD (k - 1) default := by
      have := hhead (by omega)
      rw [hx] at this
      simpa using this
    rw [hat] at hatr
    rw [hx] at hatr
    rw [hsucc, stStep, hatr, hat, hper, hxval]
    simp [computeTR]

/-- C1: for every candle sequence, `SuperTrend.add_candle` returns no output
for each of the first `period - 1` candles; on the period-th candle it produces
its first output, whose ATR is the arithmetic mean of the true ranges over the
window of the first `period` candles (the first candle's TR being
`high - low`); and for every subsequent candle the ATR equals
`(prev_ATR * (period - 1) + TR) / period` with
`TR = max(high - low, |high - prev_close|, |low - prev_close|)` (Wilder
smoothing, not a rolling mean).  Stated for any configured period between 1 and
100 (the program runs with period 7). -/
theorem supertrend_warmup_and_wilder_atr (p : ℕ) (m : ℚ) (cs : List Candle)
    (hp : 1 ≤ p) (hp' : p ≤ 100) :
    (∀ i, i < cs.length → i + 1 < p → stOutAt p m cs i = none) ∧
    (p ≤ cs.length →
      (stOutAt p m cs (p - 1)).isSome ∧
      (stStateAfter p m cs p).atr_values.headD 0 = (trSeq (cs.take p)).sum / (p : ℚ)) ∧
    (∀ k, p ≤ k → k < cs.length →
      (stOutAt p m cs k).isSome ∧
      (stStateAfter p m cs (k + 1)).atr_values.headD 0 =
        ((stStateAfter p m cs k).atr_values.headD 0 * ((p : ℚ) - 1) +
          pyMax3 ((cs.getD k default).high - (cs.getD k default).low)
            |(cs.getD k default).high - (cs.getD (k - 1) default).close|
            |(cs.getD k default).low - (cs.getD (k - 1) default).close|) / (p : ℚ)) :=
  ⟨fun i hi hwarm => stOutAt_warmup_none p m cs i hp hp' hi hwarm,
   fun hcs => stOutAt_first_emission p m cs hp hp' hcs,
   fun k hpk hk => stOutAt_wilder_step p m cs k hp hp' hpk hk⟩

/-- Witness for C1 at period 2 on a concrete 3-candle sequence. -/
theorem supertrend_warmup_and_wilder_atr_witness :
    stOutAt 2 4 [⟨10, 5, 7⟩, ⟨12, 6, 9⟩, ⟨11, 7, 8⟩] 0 = none ∧
    (stOutAt 2 4 [⟨10, 5, 7⟩, ⟨12, 6, 9⟩, ⟨11, 7, 8⟩] 1).isSome ∧
    (stOutAt 2 4 [⟨10, 5, 7⟩, ⟨12, 6, 9⟩, ⟨11, 7, 8⟩] 2).isSome :=
  ⟨(supertrend_warmup_and_wilder_atr 2 4 _ (by decide) (by decide)).1 0 (by decide) (by decide),
   ((supertrend_warmup_and_wilder_atr 2 4 _ (by decide) (by decide)).2.1 (by decide)).1,
   ((supertrend_warmup_and_wilder_atr 2 4 _ (by decide) (by decide)).2.2 2 (by decide)
     (by decide)).1⟩

/-- C2 counterexample: with period 7 and multiplier 4, seven identical candles
`high = low = close = 100` do NOT produce signal GREEN (direction UP) on the
first emission.  The first-candle rule is `direction = 1 if close > final_upper
else -1`, and the tie `close = final_upper = 100` fails the strict `>`, so the
code emits `(100, "RED")`. -/
theorem supertrend_flat_candles_not_green :
    stRun (stInit 7 4) (List.replicate 7 ⟨100, 100, 100⟩) =
      List.replicate 6 none ++ [some (100, Signal.RED)] ∧
    ¬(stRun (stInit 7 4) (List.replicate 7 ⟨100, 100, 100⟩) =
      List.replicate 6 none ++ [some (100, Signal.GREEN)]) := by
  have h : stRun (stInit 7 4) (List.replicate 7 ⟨100, 100, 100⟩) =
      List.replicate 6 none ++ [some (100, Signal.RED)] := by
    norm_num [stRun, addCandle, stInit, computeTR, initialATR, trList, pyMax3, List.replicate]
  refine ⟨h, ?_⟩
  rw [h]
  simp [List.replicate]

/-- C2 amended: with period 7 and multiplier 4, seven identical candles with
`high = low = close = 100` yield no output on the first six candles and, on
the seventh, the first emission with supertrend value 100 and signal RED
(direction DOWN, stored direction -1): every TR is 0, the initial ATR is 0,
both bands collapse to 100, and the boundary tie `close(100)` vs
`final_upper(100)` resolves to DOWN because the first-candle rule is UP iff
`close > final_upper` strictly. -/
theorem supertrend_flat_candles_emission_red :
    stRun (stInit 7 4) (List.replicate 7 ⟨100, 100, 100⟩) =
      List.replicate 6 none ++ [some (100, Signal.RED)] ∧
    (stStateAfter 7 4 (List.replicate 7 ⟨100, 100, 100⟩) 7).atr_values.headD 0 = 0 ∧
    (stStateAfter 7 4 (List.replicate 7 ⟨100, 100, 100⟩) 7).direction = -1 := by
  refine ⟨?_, ?_, ?_⟩ <;>
    norm_num [stRun, stStateAfter, stInit, addCandle, stStep, computeTR, initialATR, trList,
      pyMax3, List.replicate]

theorem addCandleNoTrim_warmup (s : SuperTrendState) (hi lo cl : ℚ)
    (h : s.candles.length + 1 < s.period) :
    addCandleNoTrim s hi lo cl =
      (none, { s with candles := ⟨hi, lo, cl⟩ :: s.candles }) := by
  rcases s with ⟨p, m, cs, atrs, sts, d⟩
  simp only [addCandleNoTrim, List.length_cons]
  rw [if_pos h]

theorem headD_take100 {α} (l : List α) (d : α) : (l.take 100).headD d = l.headD d := by
  cases l <;> simp [List.take_succ_cons]

theorem computeTR_take100 (hi lo : ℚ) (l : List Candle) :
    computeTR hi lo (l.take 100) = computeTR hi lo l := by
  cases l <;> simp [computeTR, List.take_succ_cons]

theorem head?_take100 {α} (l : List α) : (l.take 100).head? = l.head? := by
  cases l <;> simp [List.take_succ_cons]

theorem addCandle_takeState (u : SuperTrendState) (hi lo cl : ℚ)
    (hp : u.period ≤ 100) (hU : UInv u) :
    addCandle (takeState u) hi lo cl =
      ((addCandleNoTrim u hi lo cl).1, takeState (addCandleNoTrim u hi lo cl).2) := by
  obtain ⟨hA, hS, hE⟩ := hU
  rcases u with ⟨p, m, uc, ua, us, d⟩
  simp only at hp hA hS hE
  by_cases hw : uc.length + 1 < p
  · -- warm-up on both sides
    have huc : uc.take 100 = uc := List.take_of_length_le (by omega)
    have h2 : (List.cons (⟨hi, lo, cl⟩ : Candle) uc).take 100 = ⟨hi, lo, cl⟩ :: uc :=
      List.take_of_length_le (by simp [List.length_cons]; omega)
    rw [addCandle_warmup _ _ _ _ (by simp [takeState, List.length_take]; omega),
        addCandleNoTrim_warmup _ _ _ _ (by simpa using hw)]
    simp [takeState, huc, h2]
  · -- emission on both sides
    have hwT : ¬((uc.take 100).length + 1 < p) := by
      rw [List.length_take]
      omega
    rcases ua with _ | ⟨a, ta⟩ <;> rcases us with _ | ⟨e, te⟩
    · -- no ATR yet, no supertrend entries yet
      have huc : uc.take 100 = uc := List.take_of_length_le (by have := hE rfl; omega)
      by_cases h99 : 100 < uc.length + 1
      · simp [takeState, huc, addCandle, addCandleNoTrim, hw, h99, List.take_take,
          computeTR_take100, headD_take100, head?_take100]
      · have h1 : uc.take 99 = uc := List.take_of_length_le (by omega)
        simp [takeState, huc, addCandle, addCandleNoTrim, hw, h99, computeTR_take100,
          headD_take100, head?_take100, h1]
    · -- no ATR yet, supertrend entries present
      have huc : uc.take 100 = uc := List.take_of_length_le (by have := hE rfl; omega)
      by_cases h99 : 100 < uc.length + 1
      · simp [takeState, huc, addCandle, addCandleNoTrim, hw, h99, List.take_take,
          computeTR_take100, headD_take100, head?_take100, List.take_succ_cons]
      · have h1 : uc.take 99 = uc := List.take_of_length_le (by omega)
        have hte : te.take 99 = te := List.take_of_length_le (by simp at hS; omega)
        have hte' : te.take 98 = te := List.take_of_length_le (by simp at hS; omega)
        simp [takeState, huc, addCandle, addCandleNoTrim, hw, h99, computeTR_take100,
          headD_take100, head?_take100, h1, hte, hte', List.take_succ_cons]
    · -- ATR present, no supertrend entries
      by_cases h99 : 100 < uc.length + 1
      · have hmin : 100 ⊓ uc.length = 100 := by omega
        have hcond : ¬(100 + 1 < p) := by omega
        simp [takeState, addCandle, addCandleNoTrim, hw, hwT, h99, List.take_take,
          computeTR_take100, headD_take100, head?_take100, List.take_succ_cons, List.length_take, hmin, hcond]
      · have h1 : uc.take 100 = uc := List.take_of_length_le (by omega)
        have h2 : uc.take 99 = uc := List.take_of_length_le (by omega)
        have hta : ta.take 99 = ta := List.take_of_length_le (by simp at hA; omega)
        have hta' : ta.take 98 = ta := List.take_of_length_le (by simp at hA; omega)
        simp [takeState, addCandle, addCandleNoTrim, hw, h99, computeTR_take100,
          headD_take100, head?_take100, h1, h2, hta, hta', List.take_succ_cons]
    · -- ATR and supertrend entries present
      by_cases h99 : 100 < uc.length + 1
      · have hmin : 100 ⊓ uc.length = 100 := by omega
        have hcond : ¬(100 + 1 < p) := by omega
        simp [takeState, addCandle, addCandleNoTrim, hw, hwT, h99, List.take_take,
          computeTR_take100, headD_take100, head?_take100, List.take_succ_cons, List.length_take, hmin, hcond]
      · have h1 : uc.take 100 = uc := List.take_of_length_le (by omega)
        have h2 : uc.take 99 = uc := List.take_of_length_le (by omega)
        have hta : ta.take 99 = ta := List.take_of_length_le (by simp at hA; omega)
        have hta' : ta.take 98 = ta := List.take_of_length_le (by simp at hA; omega)
        have hte : te.take 99 = te := List.take_of_length_le (by simp at hS; omega)
        have hte' : te.take 98 = te := List.take_of_length_le (by simp at hS; omega)
        simp [takeState, addCandle, addCandleNoTrim, hw, h99, computeTR_take100,
          headD_take100, head?_take100, h1, h2, hta, hta', hte, hte', List.take_succ_cons]

theorem addCandleNoTrim_period (s : SuperTrendState) (hi lo cl : ℚ) :
    (addCandleNoTrim s hi lo cl).2.period = s.period := by
  rcases s with ⟨p, m, cs, atrs, sts, d⟩
  simp only [addCandleNoTrim, List.length_cons]
  split <;> rfl

theorem addCandleNoTrim_emit_fields (s : SuperTrendState) (hi lo cl : ℚ)
    (h : ¬(s.candles.length + 1 < s.period)) :
    (addCandleNoTrim s hi lo cl).2.candles = ⟨hi, lo, cl⟩ :: s.candles ∧
    (addCandleNoTrim s hi lo cl).2.atr_values.length = s.atr_values.length + 1 ∧
    (addCandleNoTrim s hi lo cl).2.supertrend_values.length =
      s.supertrend_values.length + 1 ∧
    (addCandleNoTrim s hi lo cl).2.atr_values ≠ [] := by
  rcases s with ⟨p, m, cs, atrs, sts, d⟩
  simp only [addCandleNoTrim, List.length_cons]
  rw [if_neg h]
  refine ⟨rfl, by simp, by simp, by simp⟩

theorem UInv_step (u : SuperTrendState) (hi lo cl : ℚ) (h : UInv u) :
    UInv (addCandleNoTrim u hi lo cl).2 := by
  obtain ⟨hA, hS, hE⟩ := h
  by_cases hw : u.candles.length + 1 < u.period
  · rw [addCandleNoTrim_warmup _ _ _ _ hw]
    refine ⟨by simp [List.length_cons]; omega, by simp [List.length_cons]; omega, ?_⟩
    intro hA'
    have := hE hA'
    simp [List.length_cons]
    omega
  · obtain ⟨hc, ha, hs, hne⟩ := addCandleNoTrim_emit_fields u hi lo cl hw
    refine ⟨?_, ?_, fun hA' => absurd hA' hne⟩
    · rw [ha, hc]
      simp [List.length_cons]
      omega
    · rw [hs, hc]
      simp [List.length_cons]
      omega

theorem stRun_takeState (cs : List Candle) :
    ∀ u : SuperTrendState, u.period ≤ 100 → UInv u →
      stRun (takeState u) cs = stRunNoTrim u cs := by
  induction cs with
  | nil => intro u _ _; rfl
  | cons c rest ih =>
      intro u hp hU
      have hstep := addCandle_takeState u c.high c.low c.close hp hU
      simp only [stRun, stRunNoTrim]
      rw [hstep]
      congr 1
      exact ih _ (by rw [addCandleNoTrim_period]; exact hp) (UInv_step u _ _ _ hU)

/-- C9: trimming the SuperTrend history buffers to the most recent 100 entries
does not change any output of `add_candle`: for every candle sequence, the
output stream of the real (trimming) `add_candle` equals that of the identical
computation retaining full history.  Stated for any period up to 100 (the
program runs with period 7); the warm-up average at the first emission happens
at `period` candles, before any trim, and every later step reads only the
previous ATR, band and candle, all preserved by the trim. -/
theorem supertrend_trim_preserves_outputs (p : ℕ) (m : ℚ) (cs : List Candle)
    (hp : p ≤ 100) :
    stRun (stInit p m) cs = stRunNoTrim (stInit p m) cs := by
  have h : takeState (stInit p m) = stInit p m := rfl
  rw [← h]
  exact stRun_takeState cs (stInit p m) hp
    ⟨by simp [stInit], by simp [stInit], by simp [stInit]⟩

/-- Witness for C9 at the configured period 7 on a concrete candle. -/
theorem supertrend_trim_preserves_outputs_witness :
    stRun (stInit 7 4) [⟨3, 1, 2⟩] = stRunNoTrim (stInit 7 4) [⟨3, 1, 2⟩] :=
  supertrend_trim_preserves_outputs 7 4 [⟨3, 1, 2⟩] (by decide)

/-- C10: for every `index_name` whose uppercased form is not a key of the
`INDICES` table, `get_index_config` returns the NIFTY configuration;
consequently `round_to_strike` on such a name rounds the price to a multiple
of 50 (the NIFTY strike interval); and the lookup is case-insensitive for
known names. -/
theorem index_config_default_and_case_insensitive :
    (∀ s : String, INDICES.lookup (pyUpper s) = none → get_index_config s = niftyConfig) ∧
    (∀ (s : String) (p : ℚ), INDICES.lookup (pyUpper s) = none →
      round_to_strike p s = pyRound (p / 50) * 50 ∧
      ∃ k : ℤ, round_to_strike p s = 50 * k) ∧
    (∀ s : String, (pyUpper s) ∈ INDICES.map Prod.fst →
      get_index_config s = get_index_config (pyUpper s)) := by
  refine ⟨?_, ?_, ?_⟩
  · intro s h
    simp [get_index_config, h]
  · intro s p h
    constructor
    · simp only [round_to_strike, get_index_config, h, Option.getD_none]
      norm_num [niftyConfig]
    · refine ⟨pyRound (p / (50 : ℚ)), ?_⟩
      simp only [round_to_strike, get_index_config, h, Option.getD_none]
      norm_num [niftyConfig]
      ring
  · intro s hs
    have hidem : INDICES.lookup (pyUpper (pyUpper s)) = INDICES.lookup (pyUpper s) := by
      simp [INDICES] at hs
      rcases hs with h | h | h | h | h <;> rw [h] <;> decide
    simp only [get_index_config, hidem]

/-- Witness for C10: "banknifty" is found case-insensitively, and an unknown
name such as "foo" falls back to the NIFTY configuration, rounding to 50s. -/
theorem index_config_default_witness :
    get_index_config "foo" = niftyConfig ∧
    round_to_strike 24987 "foo" = pyRound ((24987 : ℚ) / 50) * 50 ∧
    get_index_config "banknifty" = get_index_config (pyUpper "banknifty") :=
  ⟨(index_config_default_and_case_insensitive.1 "foo" (by decide)),
   (index_config_default_and_case_insensitive.2.1 "foo" 24987 (by decide)).1,
   (index_config_default_and_case_insensitive.2.2 "banknifty" (by decide))⟩

/-! ## Component lemmas for the bot transitions -/

theorem close_position_fields (cfg : Config) (s : BotState) (e p : ℚ) (r : String) :
    (close_position cfg s e p r).daily_trades = s.daily_trades ∧
    (close_position cfg s e p r).mode_paper = s.mode_paper ∧
    (close_position cfg s e p r).last_exit_candle_time = s.last_exit_candle_time ∧
    (close_position cfg s e p r).candle_start_time = s.candle_start_time ∧
    (close_position cfg s e p r).current_option_ltp = s.current_option_ltp := by
  unfold close_position
  cases s.current_position <;> simp

theorem close_position_pos_cases (cfg : Config) (s : BotState) (e p : ℚ) (r : String) :
    (close_position cfg s e p r).current_position = none ∨ close_position cfg s e p r = s := by
  unfold close_position
  cases s.current_position <;> simp

theorem close_position_of_none (cfg : Config) (s : BotState) (e p : ℚ) (r : String)
    (h : s.current_position = none) : close_position cfg s e p r = s := by
  unfold close_position
  rw [h]

theorem close_position_flag (cfg : Config) (s : BotState) (e p : ℚ) (r : String)
    (pos : Position) (h : s.current_position = some pos) :
    (close_position cfg s e p r).daily_max_loss_triggered =
      (s.daily_max_loss_triggered || decide (s.daily_pnl + p < -cfg.daily_max_loss)) ∧
    (close_position cfg s e p r).daily_pnl = s.daily_pnl + p ∧
    (close_position cfg s e p r).current_position = none := by
  unfold close_position
  rw [h]
  refine ⟨?_, by simp, by simp⟩
  by_cases hc : s.daily_pnl + p < -cfg.daily_max_loss <;> simp [hc]

theorem close_position_flag_mono (cfg : Config) (s : BotState) (e p : ℚ) (r : String)
    (h : s.daily_max_loss_triggered = true) :
    (close_position cfg s e p r).daily_max_loss_triggered = true := by
  unfold close_position
  cases s.current_position <;> simp [h] <;> split <;> simp [h]

theorem check_trailing_sl_fields (cfg : Config) (s : BotState) (p : ℚ) :
    (check_trailing_sl cfg s p).current_position = s.current_position ∧
    (check_trailing_sl cfg s p).entry_price = s.entry_price ∧
    (check_trailing_sl cfg s p).daily_trades = s.daily_trades ∧
    (check_trailing_sl cfg s p).daily_pnl = s.daily_pnl ∧
    (check_trailing_sl cfg s p).daily_max_loss_triggered = s.daily_max_loss_triggered ∧
    (check_trailing_sl cfg s p).mode_paper = s.mode_paper ∧
    (check_trailing_sl cfg s p).current_option_ltp = s.current_option_ltp ∧
    (check_trailing_sl cfg s p).last_exit_candle_time = s.last_exit_candle_time ∧
    (check_trailing_sl cfg s p).candle_start_time = s.candle_start_time := by
  unfold check_trailing_sl
  cases h : s.current_position <;> dsimp only <;> (repeat' split) <;> simp [h]

theorem check_trailing_sl_mono (cfg : Config) (s : BotState) (p : ℚ) (v : ℚ)
    (hv : s.trailing_sl = some v) :
    ∃ v', (check_trailing_sl cfg s p).trailing_sl = some v' ∧ v ≤ v' := by
  unfold check_trailing_sl
  cases h : s.current_position with
  | none => exact ⟨v, hv, le_refl v⟩
  | some pos =>
      dsimp only
      by_cases hhi : p - s.entry_price > s.highest_profit
      all_goals simp only [hhi, if_true, if_false]
      all_goals by_cases hact : p - s.entry_price ≥ cfg.trail_start_profit
      all_goals simp only [hact, if_true, if_false]
      all_goals
        first
        | exact ⟨v, by simpa using hv, le_refl v⟩
        | (rw [hv]
           dsimp only
           split
           · rename_i hgt
             exact ⟨_, by simp, le_of_lt hgt⟩
           · exact ⟨v, by simpa using hv, le_refl v⟩)

/-- C3: for every sequence of option prices observed while a position is open,
the trailing stop level (`trailing_sl`), once set, never decreases across
calls to `check_trailing_sl`: the candidate stop is only accepted when it
strictly exceeds the stored one, and nothing in `check_trailing_sl` ever
clears or lowers it. -/
theorem trailing_stop_monotone (cfg : Config) (ps : List ℚ) (s : BotState) (v : ℚ)
    (hv : s.trailing_sl = some v) :
    ∃ v', (ps.foldl (check_trailing_sl cfg) s).trailing_sl = some v' ∧ v ≤ v' := by
  induction ps generalizing s v with
  | nil => exact ⟨v, hv, le_refl v⟩
  | cons p rest ih =>
      obtain ⟨w, hw, hvw⟩ := check_trailing_sl_mono cfg s p v hv
      obtain ⟨v', hv', hwv'⟩ := ih _ _ hw
      exact ⟨v', by simpa using hv', le_trans hvw hwv'⟩

/-- Witness for C3: from a stop of 50, prices 53 then 60 keep the stop at or
above 50. -/
theorem trailing_stop_monotone_witness :
    ∃ v', (([53, 60] : List ℚ).foldl (check_trailing_sl sampleConfig)
      { baseState with
        current_position := some samplePosition
        entry_price := 50
        trailing_sl := some 50
        highest_profit := 10 }).trailing_sl = some v' ∧
      (50 : ℚ) ≤ v' :=
  trailing_stop_monotone sampleConfig [53, 60] _ 50 rfl

theorem check_trailing_sl_activation (cfg : Config) (s : BotState) (p : ℚ)
    (h0 : s.trailing_sl = none) (h1 : (check_trailing_sl cfg s p).trailing_sl ≠ none) :
    cfg.trail_start_profit ≤ p - s.entry_price := by
  unfold check_trailing_sl at h1
  cases hP : s.current_position with
  | none =>
      rw [hP] at h1
      exact absurd h0 h1
  | some pos =>
      rw [hP] at h1
      dsimp only at h1
      by_cases hact : p - s.entry_price ≥ cfg.trail_start_profit
      · exact hact
      · rw [if_neg hact] at h1
        exact absurd h0 h1

theorem check_trailing_sl_of_none (cfg : Config) (s : BotState) (p : ℚ)
    (hP : s.current_position = none) : check_trailing_sl cfg s p = s := by
  unfold check_trailing_sl
  rw [hP]

theorem check_trailing_sl_spec (cfg : Config) (s : BotState) (p : ℚ) (pos : Position)
    (hP : s.current_position = some pos) :
    (check_trailing_sl cfg s p).highest_profit =
      max s.highest_profit (p - s.entry_price) ∧
    (check_trailing_sl cfg s p).trailing_sl =
      (if cfg.trail_start_profit ≤ p - s.entry_price then
        match s.trailing_sl with
        | none =>
            some (s.entry_price +
              (truncInt ((max s.highest_profit (p - s.entry_price) -
                cfg.trail_start_profit) / cfg.trail_step) : ℚ) * cfg.trail_step)
        | some old =>
            if s.entry_price +
                (truncInt ((max s.highest_profit (p - s.entry_price) -
                  cfg.trail_start_profit) / cfg.trail_step) : ℚ) * cfg.trail_step > old then
              some (s.entry_price +
                (truncInt ((max s.highest_profit (p - s.entry_price) -
                  cfg.trail_start_profit) / cfg.trail_step) : ℚ) * cfg.trail_step)
            else some old
      else s.trailing_sl) := by
  have hmax : (if p - s.entry_price > s.highest_profit then p - s.entry_price
      else s.highest_profit) = max s.highest_profit (p - s.entry_price) := by
    rcases le_or_lt (p - s.entry_price) s.highest_profit with hle | hlt
    · rw [if_neg (not_lt.mpr hle), max_eq_left hle]
    · rw [if_pos hlt, max_eq_right (le_of_lt hlt)]
  unfold check_trailing_sl
  rw [hP]
  dsimp only
  rw [hmax]
  by_cases hact : cfg.trail_start_profit ≤ p - s.entry_price
  · rw [if_pos hact, if_pos hact]
    cases hT : s.trailing_sl with
    | none => exact ⟨rfl, rfl⟩
    | some old =>
        dsimp only
        split <;> exact ⟨rfl, rfl⟩
  · rw [if_neg hact, if_neg hact]
    exact ⟨rfl, rfl⟩

theorem check_trailing_sl_TrailInv (cfg : Config) (s : BotState) (p : ℚ)
    (hstep : 0 < cfg.trail_step) (h : TrailInv cfg s) :
    TrailInv cfg (check_trailing_sl cfg s p) := by
  intro v hv
  cases hP : s.current_position with
  | none =>
      rw [check_trailing_sl_of_none cfg s p hP] at hv ⊢
      exact h v hv
  | some pos =>
      obtain ⟨hH, hT⟩ := check_trailing_sl_spec cfg s p pos hP
      have hE : (check_trailing_sl cfg s p).entry_price = s.entry_price :=
        (check_trailing_sl_fields cfg s p).2.1
      rw [hT] at hv
      rw [hE, hH]
      set M := max s.highest_profit (p - s.entry_price) with hM
      have hsM : s.highest_profit ≤ M := le_max_left _ _
      by_cases hact : cfg.trail_start_profit ≤ p - s.entry_price
      · have hstart : cfg.trail_start_profit ≤ M := le_max_of_le_right hact
        have htr : truncInt ((M - cfg.trail_start_profit) / cfg.trail_step) =
            ⌊(M - cfg.trail_start_profit) / cfg.trail_step⌋ := by
          apply truncInt_of_nonneg
          apply div_nonneg _ (le_of_lt hstep)
          linarith
        rw [if_pos hact] at hv
        cases hTs : s.trailing_sl with
        | none =>
            rw [hTs] at hv
            dsimp only at hv
            injection hv with hv'
            refine ⟨?_, hstart⟩
            rw [← hv', htr]
            ring
        | some old =>
            rw [hTs] at hv
            dsimp only at hv
            split at hv
            · injection hv with hv'
              refine ⟨?_, hstart⟩
              rw [← hv', htr]
              ring
            · rename_i hgt
              injection hv with hv'
              obtain ⟨hfm, hhi⟩ := h old hTs
              have hmono : ⌊(s.highest_profit - cfg.trail_start_profit) / cfg.trail_step⌋ ≤
                  ⌊(M - cfg.trail_start_profit) / cfg.trail_step⌋ := by
                apply Int.floor_le_floor
                apply (div_le_div_iff_of_pos_right hstep).mpr
                linarith
              have hle : old ≤ s.entry_price +
                  (truncInt ((M - cfg.trail_start_profit) / cfg.trail_step) : ℚ) *
                    cfg.trail_step := by
                rw [htr, hfm]
                have := (mul_le_mul_iff_of_pos_left hstep).mpr (Int.cast_le.mpr hmono)
                linarith [this]
              have heq : old = s.entry_price +
                  (truncInt ((M - cfg.trail_start_profit) / cfg.trail_step) : ℚ) *
                    cfg.trail_step := le_antisymm hle (not_lt.mp hgt)
              refine ⟨?_, le_trans hhi hsM⟩
              rw [← hv', heq, htr]
              ring
      · rw [if_neg hact] at hv
        obtain ⟨hfm, hhi⟩ := h v hv
        have hMs : M = s.highest_profit := by
          rw [hM]
          apply max_eq_left
          linarith
        rw [hMs]
        exact ⟨hfm, hhi⟩

theorem check_trailing_sl_on_close_breach (cfg : Config) (s : BotState) (p : ℚ)
    (pos : Position) (hP : s.current_position = some pos) :
    (check_trailing_sl_on_close cfg s p).1 = true ↔
      ∃ v, (check_trailing_sl cfg s p).trailing_sl = some v ∧ v ≠ 0 ∧ p ≤ v := by
  unfold check_trailing_sl_on_close
  rw [hP]
  dsimp only
  cases hT : (check_trailing_sl cfg s p).trailing_sl with
  | none => simp [hT]
  | some sl =>
      dsimp only
      by_cases hc : sl ≠ 0 ∧ p ≤ sl
      · rw [if_pos hc]
        exact ⟨fun _ => ⟨sl, rfl, hc.1, hc.2⟩, fun _ => rfl⟩
      · rw [if_neg hc]
        simp only [false_iff, Bool.false_eq_true]
        rintro ⟨v, hvv, hv0, hvp⟩
        injection hvv with h'
        exact hc (h' ▸ ⟨hv0, hvp⟩)

/-- C4 counterexample: the claim's "a breach (exit) occurs exactly when the
stop is set and the current price is <= the stop" fails on the code.  With
`entry_price = 0` (reachable in live mode when the order result reports no
positive fill price) and `trail_start_profit = 10`, `trail_step = 5`, a price
of 10 sets the stop to exactly 0; at the next price 0 the stop is set and
`0 <= 0`, yet no exit happens, because the guard `if self.trailing_sl and ...`
treats the stop 0 as falsy. -/
theorem trailing_stop_zero_stop_no_breach :
    (check_trailing_sl_on_close sampleConfig
      { baseState with current_position := some samplePosition } 10).2.trailing_sl =
        some 0 ∧
    (check_trailing_sl_on_close sampleConfig
      ((check_trailing_sl_on_close sampleConfig
        { baseState with current_position := some samplePosition } 10).2) 0).1 = false ∧
    (check_trailing_sl_on_close sampleConfig
      ((check_trailing_sl_on_close sampleConfig
        { baseState with current_position := some samplePosition } 10).2) 0).2.current_position =
      some samplePosition ∧
    ((0 : ℚ) ≤ 0) := by
  refine ⟨?_, ?_, ?_, le_refl 0⟩ <;>
    norm_num [check_trailing_sl_on_close, check_trailing_sl, baseState, samplePosition,
      sampleConfig, truncInt]

/-- C4 amended: the trailing stop activates only once
`profit_points = current_price - entry_price` reaches `trail_start_profit`;
once active the stop level equals
`entry_price + trail_step * floor((highest_profit_seen - trail_start_profit) / trail_step)`
(for the configured positive `trail_step`); and a breach (exit) occurs exactly
when the stop is set to a NONZERO level and the current price is <= the stop
(Python truthiness; with any positive entry price the stop is always nonzero,
so this coincides with "set").  The concrete scenario: entry 50,
trail_start 10, trail_step 5; price 60 (profit 10) gives stop 50, price 67
(profit 17) gives stop 55, a ratchet update at 53 leaves the stop at 55, and
the next closing price <= 55 triggers the exit. -/
theorem trailing_stop_engine_amended :
    (∀ (cfg : Config) (s : BotState) (p : ℚ), s.trailing_sl = none →
      (check_trailing_sl cfg s p).trailing_sl ≠ none →
      cfg.trail_start_profit ≤ p - s.entry_price) ∧
    (∀ (cfg : Config) (s : BotState) (p : ℚ), 0 < cfg.trail_step →
      TrailInv cfg s → TrailInv cfg (check_trailing_sl cfg s p)) ∧
    (∀ (cfg : Config) (s : BotState) (p : ℚ) (pos : Position),
      s.current_position = some pos →
      ((check_trailing_sl_on_close cfg s p).1 = true ↔
        ∃ v, (check_trailing_sl cfg s p).trailing_sl = some v ∧ v ≠ 0 ∧ p ≤ v)) ∧
    (c4_r1.1 = false ∧ c4_r1.2.trailing_sl = some 50 ∧
     c4_r2.1 = false ∧ c4_r2.2.trailing_sl = some 55 ∧
     c4_s3.trailing_sl = some 55 ∧
     c4_r4.1 = true ∧ c4_r4.2.current_position = none) := by
  refine ⟨check_trailing_sl_activation, check_trailing_sl_TrailInv,
    check_trailing_sl_on_close_breach, ?_, ?_, ?_, ?_, ?_, ?_, ?_⟩ <;>
    norm_num [c4_r1, c4_r2, c4_s3, c4_r4, c4_s0, check_trailing_sl_on_close,
      check_trailing_sl, close_position, baseState, samplePosition, sampleConfig, truncInt]

/-- Witness for C4's amended theorem: the activation bound at a concrete
state, and invariant preservation from a fresh state. -/
theorem trailing_stop_engine_amended_witness :
    sampleConfig.trail_start_profit ≤ (60 : ℚ) - c4_s0.entry_price ∧
    TrailInv sampleConfig (check_trailing_sl sampleConfig baseState 0) :=
  ⟨trailing_stop_engine_amended.1 sampleConfig c4_s0 60 rfl
    (by norm_num [c4_s0, check_trailing_sl, baseState, samplePosition, sampleConfig, truncInt]
        exact Option.some_ne_none _),
   trailing_stop_engine_amended.2.1 sampleConfig baseState 0 (by norm_num [sampleConfig])
    (fun v hv => absurd hv (by simp [baseState]))⟩

theorem squareoff_pos_cases (cfg : Config) (ok : Bool) (s : BotState) :
    (squareoff cfg ok s).current_position = none ∨ squareoff cfg ok s = s := by
  unfold squareoff
  cases hP : s.current_position with
  | none => right; rfl
  | some pos =>
      dsimp only
      split_ifs
      · left
        exact (close_position_flag cfg s _ _ _ pos hP).2.2
      · left
        exact (close_position_flag cfg s _ _ _ pos hP).2.2
      · right; rfl

theorem squareoff_fields (cfg : Config) (ok : Bool) (s : BotState) :
    (squareoff cfg ok s).daily_trades = s.daily_trades ∧
    (squareoff cfg ok s).mode_paper = s.mode_paper ∧
    (squareoff cfg ok s).last_exit_candle_time = s.last_exit_candle_time ∧
    (squareoff cfg ok s).candle_start_time = s.candle_start_time := by
  unfold squareoff
  cases hP : s.current_position with
  | none => exact ⟨rfl, rfl, rfl, rfl⟩
  | some pos =>
      dsimp only
      have hf := close_position_fields cfg s s.current_option_ltp
        ((s.current_option_ltp - s.entry_price) * qtyOf cfg) "Force Square-off"
      split_ifs <;>
        first
        | exact ⟨hf.1, hf.2.1, hf.2.2.1, hf.2.2.2.1⟩
        | exact ⟨rfl, rfl, rfl, rfl⟩

theorem squareoff_flag_mono (cfg : Config) (ok : Bool) (s : BotState)
    (h : s.daily_max_loss_triggered = true) :
    (squareoff cfg ok s).daily_max_loss_triggered = true := by
  unfold squareoff
  cases hP : s.current_position with
  | none => exact h
  | some pos =>
      dsimp only
      split_ifs <;> first | exact close_position_flag_mono cfg s _ _ _ h | exact h

theorem fetch_market_data_fields (env : TickEnv) (s : BotState) :
    (fetch_market_data env s).current_position = s.current_position ∧
    (fetch_market_data env s).daily_trades = s.daily_trades ∧
    (fetch_market_data env s).daily_max_loss_triggered = s.daily_max_loss_triggered ∧
    (fetch_market_data env s).daily_pnl = s.daily_pnl ∧
    (fetch_market_data env s).last_exit_candle_time = s.last_exit_candle_time ∧
    (fetch_market_data env s).mode_paper = s.mode_paper ∧
    (fetch_market_data env s).entry_price = s.entry_price ∧
    (fetch_market_data env s).trailing_sl = s.trailing_sl ∧
    (fetch_market_data env s).highest_profit = s.highest_profit ∧
    (fetch_market_data env s).candle_start_time = s.candle_start_time := by
  unfold fetch_market_data
  dsimp only
  (repeat' split) <;> simp

theorem paper_sim_fields (s : BotState) (t : ℚ) :
    (paper_sim s t).current_position = s.current_position ∧
    (paper_sim s t).daily_trades = s.daily_trades ∧
    (paper_sim s t).daily_max_loss_triggered = s.daily_max_loss_triggered ∧
    (paper_sim s t).daily_pnl = s.daily_pnl ∧
    (paper_sim s t).last_exit_candle_time = s.last_exit_candle_time ∧
    (paper_sim s t).trailing_sl = s.trailing_sl ∧
    (paper_sim s t).highest_profit = s.highest_profit ∧
    (paper_sim s t).entry_price = s.entry_price ∧
    (paper_sim s t).candle_start_time = s.candle_start_time := by
  unfold paper_sim
  cases h : s.current_position <;> dsimp only <;> (repeat' split) <;> simp [h]

theorem on_close_exit_pos (cfg : Config) (s : BotState) (p : ℚ)
    (h : (check_trailing_sl_on_close cfg s p).1 = true) :
    (check_trailing_sl_on_close cfg s p).2.current_position = none := by
  unfold check_trailing_sl_on_close at h ⊢
  cases hP : s.current_position with
  | none => simp [hP] at h
  | some pos =>
      simp only [hP] at h ⊢
      try dsimp only at h ⊢
      cases hT : (check_trailing_sl cfg s p).trailing_sl with
      | none => simp [hT] at h
      | some sl =>
          simp only [hT] at h ⊢
          try dsimp only at h ⊢
          by_cases hc : sl ≠ 0 ∧ p ≤ sl
          · rw [if_pos hc]
            have hP' : (check_trailing_sl cfg s p).current_position = some pos := by
              rw [(check_trailing_sl_fields cfg s p).1, hP]
            exact (close_position_flag cfg (check_trailing_sl cfg s p) p
              ((p - (check_trailing_sl cfg s p).entry_price) * qtyOf cfg)
              "Trailing SL Hit" pos hP').2.2
          · rw [if_neg hc] at h
            simp at h

theorem on_close_noexit (cfg : Config) (s : BotState) (p : ℚ)
    (h : (check_trailing_sl_on_close cfg s p).1 = false) :
    (check_trailing_sl_on_close cfg s p).2.current_position = s.current_position ∧
    (check_trailing_sl_on_close cfg s p).2.last_exit_candle_time =
      s.last_exit_candle_time ∧
    (check_trailing_sl_on_close cfg s p).2.daily_trades = s.daily_trades ∧
    (check_trailing_sl_on_close cfg s p).2.daily_max_loss_triggered =
      s.daily_max_loss_triggered := by
  have hf := check_trailing_sl_fields cfg s p
  unfold check_trailing_sl_on_close at h ⊢
  cases hP : s.current_position with
  | none => simp [hP]
  | some pos =>
      simp only [hP] at h ⊢
      try dsimp only at h ⊢
      cases hT : (check_trailing_sl cfg s p).trailing_sl with
      | none =>
          simp only [hT] at h ⊢
          try dsimp only at h ⊢
          exact ⟨by rw [hf.1, hP], hf.2.2.2.2.2.2.2.1, hf.2.2.1, hf.2.2.2.2.1⟩
      | some sl =>
          simp only [hT] at h ⊢
          try dsimp only at h ⊢
          by_cases hc : sl ≠ 0 ∧ p ≤ sl
          · rw [if_pos hc] at h
            simp at h
          · rw [if_neg hc]
            try dsimp only
            exact ⟨by rw [hf.1, hP], hf.2.2.2.2.2.2.2.1, hf.2.2.1, hf.2.2.2.2.1⟩

theorem on_close_daily_trades (cfg : Config) (s : BotState) (p : ℚ) :
    (check_trailing_sl_on_close cfg s p).2.daily_trades = s.daily_trades := by
  have hf := check_trailing_sl_fields cfg s p
  unfold check_trailing_sl_on_close
  cases hP : s.current_position with
  | none => rfl
  | some pos =>
      dsimp only
      cases hT : (check_trailing_sl cfg s p).trailing_sl with
      | none => exact hf.2.2.1
      | some sl =>
          dsimp only
          split_ifs with hc
          · rw [(close_position_fields cfg _ _ _ _).1, hf.2.2.1]
          · exact hf.2.2.1

theorem process_signal_some_pos (cfg : Config) (env : EntryEnv) (s : BotState)
    (sig : Signal) (ltp : ℚ) (pos : Position) (hP : s.current_position = some pos) :
    (process_signal_on_close cfg env s sig ltp).2.current_position = none ∨
    (process_signal_on_close cfg env s sig ltp).2 = s := by
  unfold process_signal_on_close
  simp only [hP]
  try dsimp only
  split_ifs
  · exact Or.inl (close_position_flag cfg s s.current_option_ltp
      ((s.current_option_ltp - s.entry_price) * qtyOf cfg) "SuperTrend Reversal" pos hP).2.2
  · exact Or.inl (close_position_flag cfg s s.current_option_ltp
      ((s.current_option_ltp - s.entry_price) * qtyOf cfg) "SuperTrend Reversal" pos hP).2.2
  · exact Or.inr rfl

theorem process_signal_no_take (cfg : Config) (env : EntryEnv) (s : BotState)
    (sig : Signal) (ltp : ℚ) (hP : s.current_position = none)
    (hct : env.can_take_new_trade = false) :
    process_signal_on_close cfg env s sig ltp = (false, s) := by
  unfold process_signal_on_close
  simp only [hP]
  try dsimp only
  rw [if_pos (by simp [hct])]

theorem enter_position_cases (cfg : Config) (env : EntryEnv) (s : BotState)
    (ot : OptionType) (strike : ℤ) (ltp : ℚ) :
    (∃ q, (enter_position cfg env s ot strike ltp).current_position = some q ∧
      (enter_position cfg env s ot strike ltp).daily_trades = s.daily_trades + 1 ∧
      (enter_position cfg env s ot strike ltp).daily_max_loss_triggered =
        s.daily_max_loss_triggered ∧
      (enter_position cfg env s ot strike ltp).daily_pnl = s.daily_pnl ∧
      (enter_position cfg env s ot strike ltp).last_exit_candle_time =
        s.last_exit_candle_time) ∨
    enter_position cfg env s ot strike ltp = s := by
  unfold enter_position
  dsimp only
  split_ifs <;>
    first
      | (left; exact ⟨_, rfl, rfl, rfl, rfl, rfl⟩)
      | (right; rfl)

theorem process_signal_flag_none (cfg : Config) (env : EntryEnv) (s : BotState)
    (sig : Signal) (ltp : ℚ) (hP : s.current_position = none) :
    (process_signal_on_close cfg env s sig ltp).1 = false ∧
    (process_signal_on_close cfg env s sig ltp).2.daily_max_loss_triggered =
      s.daily_max_loss_triggered := by
  unfold process_signal_on_close
  simp only [hP]
  try dsimp only
  by_cases h1 : ¬env.can_take_new_trade
  · rw [if_pos h1]; exact ⟨rfl, rfl⟩
  · rw [if_neg h1]
    by_cases h2 : s.daily_trades ≥ cfg.max_trades_per_day
    · rw [if_pos h2]; exact ⟨rfl, rfl⟩
    · rw [if_neg h2]
      refine ⟨rfl, ?_⟩
      rcases enter_position_cases cfg env s
          (if sig = Signal.RED then OptionType.PE else OptionType.CE)
          (round_to_strike ltp cfg.selected_index) ltp with ⟨q, _, _, hfl, _⟩ | he
      · exact hfl
      · rw [he]

theorem signal_step_pos (cfg : Config) (env : TickEnv) (s : BotState) (sig : Signal)
    (p : Position) (hi : 0 < cfg.candle_interval) (hP : s.current_position = some p) :
    (signal_step cfg env s sig).current_position = some p ∨
    (signal_step cfg env s sig).current_position = none := by
  unfold signal_step
  simp only [hP, Option.isSome_some, eq_self_iff_true, if_true]
  cases hrr : (check_trailing_sl_on_close cfg s s.current_option_ltp).1 with
  | true =>
      have hnone := on_close_exit_pos cfg s s.current_option_ltp hrr
      have hd : decide (env.now - env.now < cfg.candle_interval) = true :=
        decide_eq_true (by rw [sub_self]; exact hi)
      simp only [eq_self_iff_true, if_true]
      simp only [hd, Bool.not_true, Bool.false_eq_true, if_false]
      exact Or.inr hnone
  | false =>
      obtain ⟨hpos, hlex, htr, hfl⟩ := on_close_noexit cfg s s.current_option_ltp hrr
      simp only [Bool.false_eq_true, if_false]
      have hP2 : (check_trailing_sl_on_close cfg s s.current_option_ltp).2.current_position
          = some p := by rw [hpos, hP]
      split
      · rcases process_signal_some_pos cfg env.entry
            (check_trailing_sl_on_close cfg s s.current_option_ltp).2 sig
            (check_trailing_sl_on_close cfg s s.current_option_ltp).2.acc_close p hP2
          with h | h
        · right
          split
          · exact h
          · exact h
        · left
          split
          · rw [h]; exact hP2
          · rw [h]; exact hP2
      · left; exact hP2

theorem signal_step_none (cfg : Config) (env : TickEnv) (s : BotState) (sig : Signal)
    (hP : s.current_position = none) (hct : env.entry.can_take_new_trade = false) :
    signal_step cfg env s sig = s := by
  unfold signal_step
  simp only [hP, Option.isSome_none, Bool.false_eq_true, if_false]
  split
  · rw [process_signal_no_take cfg env.entry s sig s.acc_close hP hct]
    simp
  · rfl

theorem signal_step_flag_none (cfg : Config) (env : TickEnv) (s : BotState) (sig : Signal)
    (hP : s.current_position = none) :
    (signal_step cfg env s sig).daily_max_loss_triggered =
      s.daily_max_loss_triggered := by
  unfold signal_step
  simp only [hP, Option.isSome_none, Bool.false_eq_true, if_false]
  split
  · obtain ⟨h1, h2⟩ := process_signal_flag_none cfg env.entry s sig s.acc_close hP
    simp only [h1, Bool.false_eq_true, if_false]
    exact h2
  · rfl

theorem signal_step_cooldown (cfg : Config) (env : TickEnv) (s : BotState) (sig : Signal)
    (T : ℚ) (hi : 0 < cfg.candle_interval) (hT : s.last_exit_candle_time = some T)
    (hcool : env.now < T + cfg.candle_interval) :
    (signal_step cfg env s sig).daily_trades = s.daily_trades ∧
    ((signal_step cfg env s sig).current_position = s.current_position ∨
     (signal_step cfg env s sig).current_position = none) := by
  unfold signal_step
  cases hP : s.current_position with
  | none =>
      simp only [hP, Option.isSome_none, Bool.false_eq_true, if_false]
      simp only [hT]
      have hd : decide (env.now - T < cfg.candle_interval) = true :=
        decide_eq_true (sub_lt_iff_lt_add'.mpr hcool)
      simp only [hd, Bool.not_true, Bool.false_eq_true, if_false]
      exact ⟨by simp, Or.inl (by simp [hP])⟩
  | some p =>
      simp only [hP, Option.isSome_some, eq_self_iff_true, if_true]
      cases hrr : (check_trailing_sl_on_close cfg s s.current_option_ltp).1 with
      | false =>
          obtain ⟨hpos, hlex, htr, hfl⟩ := on_close_noexit cfg s s.current_option_ltp hrr
          simp only [Bool.false_eq_true, if_false]
          simp only [hlex, hT]
          have hd : decide (env.now - T < cfg.candle_interval) = true :=
            decide_eq_true (sub_lt_iff_lt_add'.mpr hcool)
          simp only [hd, Bool.not_true, Bool.false_eq_true, if_false]
          exact ⟨htr, Or.inl (hpos.trans hP)⟩
      | true =>
          have hnone := on_close_exit_pos cfg s s.current_option_ltp hrr
          have hd : decide (env.now - env.now < cfg.candle_interval) = true :=
            decide_eq_true (by rw [sub_self]; exact hi)
          simp only [eq_self_iff_true, if_true]
          simp only [hd, Bool.not_true, Bool.false_eq_true, if_false]
          exact ⟨on_close_daily_trades cfg s s.current_option_ltp, Or.inr hnone⟩

theorem boundary_step_pos (cfg : Config) (env : TickEnv) (s : BotState) (p : Position)
    (hi : 0 < cfg.candle_interval) (hP : s.current_position = some p) :
    (boundary_step cfg env s).current_position = some p ∨
    (boundary_step cfg env s).current_position = none := by
  unfold boundary_step
  cases hL : s.acc_low with
  | none => simp only [hL]; exact Or.inl hP
  | some lo =>
      simp only [hL]
      by_cases hH : s.acc_high > 0
      · rw [if_pos hH]
        rcases hr : (addCandle s.supertrend s.acc_high lo s.acc_close).1 with _ | ⟨v, sg⟩
        · simp only [hr]; exact Or.inl hP
        · simp only [hr]
          by_cases hv : v ≠ 0
          · rw [if_pos hv]
            exact signal_step_pos cfg env
              { s with supertrend := (addCandle s.supertrend s.acc_high lo s.acc_close).2,
                       supertrend_value := v, last_signal := some sg,
                       acc_low := some lo } sg p hi hP
          · rw [if_neg hv]; exact Or.inl hP
      · rw [if_neg hH]; exact Or.inl hP

theorem boundary_step_no_entry (cfg : Config) (env : TickEnv) (s : BotState)
    (hP : s.current_position = none) (hct : env.entry.can_take_new_trade = false) :
    (boundary_step cfg env s).current_position = none := by
  unfold boundary_step
  cases hL : s.acc_low with
  | none => simp only [hL]; exact hP
  | some lo =>
      simp only [hL]
      by_cases hH : s.acc_high > 0
      · rw [if_pos hH]
        rcases hr : (addCandle s.supertrend s.acc_high lo s.acc_close).1 with _ | ⟨v, sg⟩
        · simp only [hr]; exact hP
        · simp only [hr]
          by_cases hv : v ≠ 0
          · rw [if_pos hv]
            exact (congrArg BotState.current_position
              (signal_step_none cfg env
                { s with supertrend := (addCandle s.supertrend s.acc_high lo s.acc_close).2,
                         supertrend_value := v, last_signal := some sg,
                         acc_low := some lo } sg hP hct)).trans hP
          · rw [if_neg hv]; exact hP
      · rw [if_neg hH]; exact hP

theorem boundary_step_flag_none (cfg : Config) (env : TickEnv) (s : BotState)
    (hP : s.current_position = none) :
    (boundary_step cfg env s).daily_max_loss_triggered =
      s.daily_max_loss_triggered := by
  unfold boundary_step
  cases hL : s.acc_low with
  | none => simp only [hL]
  | some lo =>
      simp only [hL]
      by_cases hH : s.acc_high > 0
      · rw [if_pos hH]
        rcases hr : (addCandle s.supertrend s.acc_high lo s.acc_close).1 with _ | ⟨v, sg⟩
        · simp only [hr]
        · simp only [hr]
          by_cases hv : v ≠ 0
          · rw [if_pos hv]
            exact signal_step_flag_none cfg env
              { s with supertrend := (addCandle s.supertrend s.acc_high lo s.acc_close).2,
                       supertrend_value := v, last_signal := some sg,
                       acc_low := some lo } sg hP
          · rw [if_neg hv]
      · rw [if_neg hH]

theorem boundary_step_cooldown (cfg : Config) (env : TickEnv) (s : BotState) (T : ℚ)
    (hi : 0 < cfg.candle_interval) (hT : s.last_exit_candle_time = some T)
    (hcool : env.now < T + cfg.candle_interval) :
    (boundary_step cfg env s).daily_trades = s.daily_trades ∧
    ((boundary_step cfg env s).current_position = s.current_position ∨
     (boundary_step cfg env s).current_position = none) := by
  unfold boundary_step
  cases hL : s.acc_low with
  | none => simp only [hL]; exact ⟨by trivial, Or.inl (by trivial)⟩
  | some lo =>
      simp only [hL]
      by_cases hH : s.acc_high > 0
      · rw [if_pos hH]
        rcases hr : (addCandle s.supertrend s.acc_high lo s.acc_close).1 with _ | ⟨v, sg⟩
        · simp only [hr]; exact ⟨by trivial, Or.inl (by trivial)⟩
        · simp only [hr]
          by_cases hv : v ≠ 0
          · rw [if_pos hv]
            exact signal_step_cooldown cfg env
              { s with supertrend := (addCandle s.supertrend s.acc_high lo s.acc_close).2,
                       supertrend_value := v, last_signal := some sg,
                       acc_low := some lo } sg T hi hT hcool
          · rw [if_neg hv]; exact ⟨by trivial, Or.inl (by trivial)⟩
      · rw [if_neg hH]; exact ⟨by trivial, Or.inl (by trivial)⟩

theorem loop_tail_flag_stop (cfg : Config) (env : TickEnv) (s : BotState)
    (h : s.daily_max_loss_triggered = true) : loop_tail cfg env s = s := by
  unfold loop_tail
  split_ifs with h1 h2 <;> first | rfl | exact absurd h h2

theorem loop_tail_pos (cfg : Config) (env : TickEnv) (s : BotState) (p : Position)
    (hi : 0 < cfg.candle_interval) (hP : s.current_position = some p) :
    (loop_tail cfg env s).current_position = some p ∨
    (loop_tail cfg env s).current_position = none := by
  unfold loop_tail
  dsimp only
  split
  · exact Or.inl hP
  · split
    · exact Or.inl hP
    · have hf : (fetch_market_data env s).current_position = some p := by
        rw [(fetch_market_data_fields env s).1, hP]
      split
      · rcases boundary_step_pos cfg env (fetch_market_data env s) p hi hf with h | h
        · exact Or.inl ((paper_sim_fields _ env.sim_tick).1.trans h)
        · exact Or.inr ((paper_sim_fields _ env.sim_tick).1.trans h)
      · exact Or.inl ((paper_sim_fields _ env.sim_tick).1.trans hf)

theorem loop_tail_pos_none (cfg : Config) (env : TickEnv) (s : BotState)
    (hP : s.current_position = none) (hct : env.entry.can_take_new_trade = false) :
    (loop_tail cfg env s).current_position = none := by
  unfold loop_tail
  dsimp only
  split
  · exact hP
  · split
    · exact hP
    · have hf : (fetch_market_data env s).current_position = none := by
        rw [(fetch_market_data_fields env s).1, hP]
      split
      · exact (paper_sim_fields _ env.sim_tick).1.trans
          (boundary_step_no_entry cfg env (fetch_market_data env s) hf hct)
      · exact (paper_sim_fields _ env.sim_tick).1.trans hf

theorem loop_tail_flag_none (cfg : Config) (env : TickEnv) (s : BotState)
    (hfl : s.daily_max_loss_triggered = false) (hP : s.current_position = none) :
    (loop_tail cfg env s).daily_max_loss_triggered = false := by
  unfold loop_tail
  dsimp only
  split
  · exact hfl
  · split
    · exact hfl
    · have hf1 : (fetch_market_data env s).daily_max_loss_triggered = false := by
        rw [(fetch_market_data_fields env s).2.2.1, hfl]
      have hfP : (fetch_market_data env s).current_position = none := by
        rw [(fetch_market_data_fields env s).1, hP]
      split
      · exact ((paper_sim_fields _ env.sim_tick).2.2.1).trans
          ((boundary_step_flag_none cfg env _ hfP).trans hf1)
      · exact ((paper_sim_fields _ env.sim_tick).2.2.1).trans hf1

theorem loop_tail_cooldown (cfg : Config) (env : TickEnv) (s : BotState) (T : ℚ)
    (hi : 0 < cfg.candle_interval) (hT : s.last_exit_candle_time = some T)
    (hcool : env.now < T + cfg.candle_interval) :
    (loop_tail cfg env s).daily_trades = s.daily_trades ∧
    ((loop_tail cfg env s).current_position = s.current_position ∨
     (loop_tail cfg env s).current_position = none) := by
  unfold loop_tail
  dsimp only
  split
  · exact ⟨rfl, Or.inl rfl⟩
  · split
    · exact ⟨rfl, Or.inl rfl⟩
    · have hfT : (fetch_market_data env s).last_exit_candle_time = some T := by
        rw [(fetch_market_data_fields env s).2.2.2.2.1, hT]
      split
      · obtain ⟨htr, hpos⟩ :=
          boundary_step_cooldown cfg env (fetch_market_data env s) T hi hfT hcool
        refine ⟨((paper_sim_fields _ env.sim_tick).2.1).trans
          (htr.trans (fetch_market_data_fields env s).2.1), ?_⟩
        rcases hpos with h | h
        · exact Or.inl (((paper_sim_fields _ env.sim_tick).1).trans
            (h.trans (fetch_market_data_fields env s).1))
        · exact Or.inr (((paper_sim_fields _ env.sim_tick).1).trans h)
      · exact ⟨((paper_sim_fields _ env.sim_tick).2.1).trans
            (fetch_market_data_fields env s).2.1,
          Or.inl (((paper_sim_fields _ env.sim_tick).1).trans
            (fetch_market_data_fields env s).1)⟩

theorem loop_tail_no_boundary (cfg : Config) (env : TickEnv) (s : BotState)
    (hnb : env.now - s.candle_start_time < cfg.candle_interval) :
    (loop_tail cfg env s).trailing_sl = s.trailing_sl ∧
    (loop_tail cfg env s).highest_profit = s.highest_profit := by
  unfold loop_tail
  dsimp only
  split
  · exact ⟨rfl, rfl⟩
  · split
    · exact ⟨rfl, rfl⟩
    · have hcs : (fetch_market_data env s).candle_start_time = s.candle_start_time :=
        (fetch_market_data_fields env s).2.2.2.2.2.2.2.2.2
      split
      · rename_i hge
        rw [hcs] at hge
        exact absurd hge (not_le.mpr hnb)
      · exact ⟨((paper_sim_fields _ env.sim_tick).2.2.2.2.2.1).trans
            (fetch_market_data_fields env s).2.2.2.2.2.2.2.1,
          ((paper_sim_fields _ env.sim_tick).2.2.2.2.2.2.1).trans
            (fetch_market_data_fields env s).2.2.2.2.2.2.2.2.1⟩

theorem loop_step_pos_preserved (cfg : Config) (env : TickEnv) (s : BotState)
    (p : Position) (hi : 0 < cfg.candle_interval)
    (hfs : env.force_squareoff = true → env.entry.can_take_new_trade = false)
    (hP : s.current_position = some p) :
    (loop_step cfg env s).current_position = some p ∨
    (loop_step cfg env s).current_position = none := by
  unfold loop_step
  dsimp only
  have key : ∀ t : BotState, t.current_position = some p →
      (loop_tail cfg env
        (if env.force_squareoff ∧ t.current_position.isSome then
          squareoff cfg env.squareoff_order_ok t else t)).current_position = some p ∨
      (loop_tail cfg env
        (if env.force_squareoff ∧ t.current_position.isSome then
          squareoff cfg env.squareoff_order_ok t else t)).current_position = none := by
    intro t ht
    by_cases h2 : env.force_squareoff = true ∧ t.current_position.isSome = true
    · rw [if_pos h2]
      have hct := hfs h2.1
      rcases squareoff_pos_cases cfg env.squareoff_order_ok t with hq | hq
      · exact Or.inr (loop_tail_pos_none cfg env _ hq hct)
      · rw [hq]; exact loop_tail_pos cfg env t p hi ht
    · rw [if_neg h2]; exact loop_tail_pos cfg env t p hi ht
  split
  · exact key (reset_state s) hP
  · exact key s hP

theorem loop_step_flag_sticky (cfg : Config) (env : TickEnv) (s : BotState)
    (hfl : s.daily_max_loss_triggered = true)
    (hres : ¬(env.ist_hour = 9 ∧ env.ist_minute = 15)) :
    (loop_step cfg env s).daily_max_loss_triggered = true ∧
    (loop_step cfg env s).daily_trades = s.daily_trades := by
  unfold loop_step
  dsimp only
  rw [if_neg hres]
  by_cases h2 : env.force_squareoff = true ∧ s.current_position.isSome = true
  · rw [if_pos h2]
    have hq := squareoff_flag_mono cfg env.squareoff_order_ok s hfl
    rw [loop_tail_flag_stop cfg env _ hq]
    exact ⟨hq, (squareoff_fields cfg env.squareoff_order_ok s).1⟩
  · rw [if_neg h2]
    rw [loop_tail_flag_stop cfg env s hfl]
    exact ⟨hfl, rfl⟩

theorem loop_step_reset_clears (cfg : Config) (env : TickEnv) (s : BotState)
    (h9 : env.ist_hour = 9) (h15 : env.ist_minute = 15)
    (hP : s.current_position = none) :
    (loop_step cfg env s).daily_max_loss_triggered = false := by
  unfold loop_step
  dsimp only
  rw [if_pos (show env.ist_hour = 9 ∧ env.ist_minute = 15 from ⟨h9, h15⟩)]
  have hno : ¬(env.force_squareoff = true ∧
      (reset_state s).current_position.isSome = true) := by
    rintro ⟨-, h2⟩
    simp only [reset_state] at h2
    rw [hP] at h2
    exact Bool.false_ne_true h2
  rw [if_neg hno]
  exact loop_tail_flag_none cfg env (reset_state s) rfl hP

theorem loop_step_cooldown_blocks (cfg : Config) (env : TickEnv) (s : BotState) (T : ℚ)
    (hi : 0 < cfg.candle_interval)
    (hres : ¬(env.ist_hour = 9 ∧ env.ist_minute = 15))
    (hT : s.last_exit_candle_time = some T)
    (hcool : env.now < T + cfg.candle_interval) :
    (loop_step cfg env s).daily_trades = s.daily_trades ∧
    ((loop_step cfg env s).current_position = s.current_position ∨
     (loop_step cfg env s).current_position = none) := by
  unfold loop_step
  dsimp only
  rw [if_neg hres]
  by_cases h2 : env.force_squareoff = true ∧ s.current_position.isSome = true
  · rw [if_pos h2]
    have hsf := squareoff_fields cfg env.squareoff_order_ok s
    have hsT : (squareoff cfg env.squareoff_order_ok s).last_exit_candle_time = some T := by
      rw [hsf.2.2.1, hT]
    obtain ⟨htr, hpos⟩ :=
      loop_tail_cooldown cfg env (squareoff cfg env.squareoff_order_ok s) T hi hsT hcool
    refine ⟨htr.trans hsf.1, ?_⟩
    rcases squareoff_pos_cases cfg env.squareoff_order_ok s with hq | hq
    · rcases hpos with h | h
      · exact Or.inr (h.trans hq)
      · exact Or.inr h
    · rw [hq] at hpos ⊢
      exact hpos
  · rw [if_neg h2]
    exact loop_tail_cooldown cfg env s T hi hT hcool

theorem loop_step_no_boundary (cfg : Config) (env : TickEnv) (s : BotState)
    (hforce : env.force_squareoff = false)
    (hnb : env.now - s.candle_start_time < cfg.candle_interval) :
    (loop_step cfg env s).trailing_sl = s.trailing_sl ∧
    (loop_step cfg env s).highest_profit = s.highest_profit := by
  unfold loop_step
  dsimp only
  have hno : ∀ t : BotState,
      ¬(env.force_squareoff = true ∧ t.current_position.isSome = true) := by
    rintro t ⟨h1, -⟩
    rw [hforce] at h1
    exact Bool.false_ne_true h1
  by_cases hres : env.ist_hour = 9 ∧ env.ist_minute = 15
  · rw [if_pos hres, if_neg (hno _)]
    exact loop_tail_no_boundary cfg env (reset_state s) hnb
  · rw [if_neg hres, if_neg (hno _)]
    exact loop_tail_no_boundary cfg env s hnb

/-- C5: at most one position is open at any time.  While a position `p` is
open, `process_signal_on_close` either keeps exactly `p` or closes it (it
never enters a second one); `enter_position` either leaves the state
untouched or records exactly one new position while bumping the day's trade
count; and across a whole `run_loop` iteration an open position `p` can only
persist or be closed, provided the candle interval is positive and the
wall clock is consistent (when the forced square-off window is active, the
entry window `can_take_new_trade` is closed). -/
theorem single_position_invariant (cfg : Config) (eenv : EntryEnv) (env : TickEnv)
    (s : BotState) (sig : Signal) (ltp : ℚ) (ot : OptionType) (strike : ℤ)
    (p : Position) (hi : 0 < cfg.candle_interval)
    (hfs : env.force_squareoff = true → env.entry.can_take_new_trade = false) :
    (s.current_position = some p →
      (process_signal_on_close cfg eenv s sig ltp).2.current_position = some p ∨
      (process_signal_on_close cfg eenv s sig ltp).2.current_position = none) ∧
    ((∃ q, (enter_position cfg eenv s ot strike ltp).current_position = some q ∧
        (enter_position cfg eenv s ot strike ltp).daily_trades = s.daily_trades + 1) ∨
      enter_position cfg eenv s ot strike ltp = s) ∧
    (s.current_position = some p →
      (loop_step cfg env s).current_position = some p ∨
      (loop_step cfg env s).current_position = none) := by
  refine ⟨?_, ?_, ?_⟩
  · intro hP
    rcases process_signal_some_pos cfg eenv s sig ltp p hP with h | h
    · exact Or.inr h
    · exact Or.inl (by rw [h, hP])
  · rcases enter_position_cases cfg eenv s ot strike ltp with ⟨q, h1, h2, -⟩ | he
    · exact Or.inl ⟨q, h1, h2⟩
    · exact Or.inr he
  · intro hP
    exact loop_step_pos_preserved cfg env s p hi hfs hP

/-- Witness for C5 at the sample configuration, state and environments. -/
theorem single_position_invariant_witness :
    (c5_s.current_position = some samplePosition →
      (process_signal_on_close sampleConfig sampleEntryEnv c5_s Signal.RED
          100).2.current_position = some samplePosition ∨
      (process_signal_on_close sampleConfig sampleEntryEnv c5_s Signal.RED
          100).2.current_position = none) ∧
    ((∃ q, (enter_position sampleConfig sampleEntryEnv c5_s OptionType.CE 100
          100).current_position = some q ∧
        (enter_position sampleConfig sampleEntryEnv c5_s OptionType.CE 100
          100).daily_trades = c5_s.daily_trades + 1) ∨
      enter_position sampleConfig sampleEntryEnv c5_s OptionType.CE 100 100 = c5_s) ∧
    (c5_s.current_position = some samplePosition →
      (loop_step sampleConfig sampleTickEnv c5_s).current_position =
        some samplePosition ∨
      (loop_step sampleConfig sampleTickEnv c5_s).current_position = none) :=
  single_position_invariant sampleConfig sampleEntryEnv sampleTickEnv c5_s Signal.RED
    100 OptionType.CE 100 samplePosition (by norm_num [sampleConfig])
    (by intro h; simp [sampleTickEnv] at h)

/-- C6: the daily-loss flag is set by `close_position` exactly when the
accumulated `daily_pnl` falls strictly below `-daily_max_loss`; while set and
no 09:15 reset occurs, a `run_loop` iteration keeps it set and performs no
entry (the trade count is unchanged); the 09:15 reset clears it (stated from
a flat state, so nothing re-triggers it in the same iteration); and in the
spec's scenario two exits of -1200 and -900 against a 2000 limit leave the
flag clear after the first close and set after the second
(daily_pnl = -2100 < -2000). -/
theorem loss_limit_sticky_until_reset (cfg : Config) (env : TickEnv) (s : BotState) :
    (∀ pos e pnl r, s.current_position = some pos →
      (close_position cfg s e pnl r).daily_max_loss_triggered =
        (s.daily_max_loss_triggered ||
          decide (s.daily_pnl + pnl < -cfg.daily_max_loss))) ∧
    (s.daily_max_loss_triggered = true → ¬(env.ist_hour = 9 ∧ env.ist_minute = 15) →
      (loop_step cfg env s).daily_max_loss_triggered = true ∧
      (loop_step cfg env s).daily_trades = s.daily_trades) ∧
    (env.ist_hour = 9 → env.ist_minute = 15 → s.current_position = none →
      (loop_step cfg env s).daily_max_loss_triggered = false) ∧
    ((close_position sampleConfig c6_open1 76 (-1200) "Trailing SL Hit").daily_pnl =
        -1200 ∧
     (close_position sampleConfig c6_open1 76 (-1200)
        "Trailing SL Hit").daily_max_loss_triggered = false ∧
     (close_position sampleConfig c6_open2 82 (-900) "Trailing SL Hit").daily_pnl =
        -2100 ∧
     (close_position sampleConfig c6_open2 82 (-900)
        "Trailing SL Hit").daily_max_loss_triggered = true) := by
  refine ⟨?_, ?_, ?_, ?_⟩
  · intro pos e pnl r hP
    exact (close_position_flag cfg s e pnl r pos hP).1
  · intro h1 h2
    exact loop_step_flag_sticky cfg env s h1 h2
  · intro h9 h15 hP
    exact loop_step_reset_clears cfg env s h9 h15 hP
  · norm_num [close_position, c6_open1, c6_open2, sampleConfig, baseState]

/-- Witness for C6: a flagged state at 10:00 IST keeps the flag and enters
nothing. -/
theorem loss_limit_sticky_until_reset_witness :
    (loop_step sampleConfig sampleTickEnv c6_flagged).daily_max_loss_triggered = true ∧
    (loop_step sampleConfig sampleTickEnv c6_flagged).daily_trades =
      c6_flagged.daily_trades :=
  (loss_limit_sticky_until_reset sampleConfig sampleTickEnv c6_flagged).2.1 rfl
    (by simp [sampleTickEnv])

theorem c7_entry_step1 :
    loop_step sampleConfig c7_env c7_state =
      paper_sim (boundary_step sampleConfig c7_env
        (fetch_market_data c7_env c7_state)) c7_env.sim_tick := by
  norm_num [loop_step, loop_tail, reset_state, fetch_market_data, c7_env, c7_state,
    baseState, sampleConfig, sampleEntryEnv]

theorem c7_entry_possible : (loop_step sampleConfig c7_env c7_state).daily_trades = 1 := by
  rw [c7_entry_step1, (paper_sim_fields _ _).2.1]
  norm_num [boundary_step, signal_step, fetch_market_data, c7_env, c7_state, baseState,
    sampleConfig, sampleEntryEnv, addCandle, computeTR, trList, initialATR, pyMax3,
    stInit, process_signal_on_close, check_trailing_sl_on_close, check_trailing_sl,
    enter_position, finish_entry, qtyOf]

/-- C7: cool-down after an exit.  If the last exit was recorded at candle
time `T` and the current tick (outside the 09:15 reset minute) is strictly
before `T` plus one candle interval, a `run_loop` iteration enters nothing:
the day's trade count is unchanged and the position can only stay or be
closed.  At the first boundary at or after `T` plus one interval entry is
possible again: in the concrete flat-candle scenario (`c7_state`, exit
recorded at `T = 0`, tick at `now = 5 = 0 + candle_interval`) the iteration
does enter a trade, raising `daily_trades` from 0 to 1. -/
theorem cooldown_blocks_reentry (cfg : Config) (env : TickEnv) (s : BotState) (T : ℚ)
    (hi : 0 < cfg.candle_interval)
    (hres : ¬(env.ist_hour = 9 ∧ env.ist_minute = 15))
    (hT : s.last_exit_candle_time = some T)
    (hcool : env.now < T + cfg.candle_interval) :
    ((loop_step cfg env s).daily_trades = s.daily_trades ∧
     ((loop_step cfg env s).current_position = s.current_position ∨
      (loop_step cfg env s).current_position = none)) ∧
    ((loop_step sampleConfig c7_env c7_state).daily_trades = 1 ∧
     c7_state.daily_trades = 0 ∧
     c7_state.last_exit_candle_time = some 0 ∧
     c7_env.now = 0 + sampleConfig.candle_interval) := by
  refine ⟨loop_step_cooldown_blocks cfg env s T hi hres hT hcool,
    c7_entry_possible, rfl, rfl, ?_⟩
  norm_num [c7_env, sampleConfig]

/-- Witness for C7: with the exit recorded at 0 and a tick at `now = 3`
(inside the 5-unit interval) the sample iteration enters nothing. -/
theorem cooldown_blocks_reentry_witness :
    (((loop_step sampleConfig c7_benv c7_state).daily_trades =
        c7_state.daily_trades ∧
      ((loop_step sampleConfig c7_benv c7_state).current_position =
          c7_state.current_position ∨
       (loop_step sampleConfig c7_benv c7_state).current_position = none)) ∧
     ((loop_step sampleConfig c7_env c7_state).daily_trades = 1 ∧
      c7_state.daily_trades = 0 ∧
      c7_state.last_exit_candle_time = some 0 ∧
      c7_env.now = 0 + sampleConfig.candle_interval)) :=
  cooldown_blocks_reentry sampleConfig c7_benv c7_state 0
    (by norm_num [sampleConfig]) (by simp [c7_benv]) rfl
    (by norm_num [c7_benv, sampleConfig])

/-- C8 counterexample against trading_bot.py: a tick with an open position
(entry 100, broker security id "123"), fetched option price 130, and no
candle boundary (`now - candle_start = 2 < 5`) stores the new price but does
NOT run the trailing-stop ratchet: `highest_profit` stays 0 and `trailing_sl`
stays unset, although `check_trailing_sl` at 130 would record highest profit
30 and stop 120. -/
theorem tick_without_boundary_no_ratchet :
    (loop_step sampleConfig c8_env c8_s).current_option_ltp = 130 ∧
    (loop_step sampleConfig c8_env c8_s).trailing_sl = none ∧
    (loop_step sampleConfig c8_env c8_s).highest_profit = 0 ∧
    (check_trailing_sl sampleConfig c8_s 130).trailing_sl = some 120 ∧
    (check_trailing_sl sampleConfig c8_s 130).highest_profit = 30 := by
  have hsw : pyStartsWith "123" "SIM_" = false := by decide
  have hne : ("123" != "") = true := by decide
  norm_num [loop_step, loop_tail, reset_state, fetch_market_data, boundary_step,
    paper_sim, check_trailing_sl, truncInt, pyRound2, roundTick, pyRound, c8_s, c8_env,
    baseState, samplePosition, sampleConfig, sampleEntryEnv, hsw, hne]

/-- C8 (amended): in trading_bot.py the trailing-stop ratchet does NOT run on
boundary-free ticks — with no forced square-off and no candle boundary, a
`run_loop` iteration leaves `trailing_sl` and `highest_profit` unchanged
(the ratchet runs only inside the candle-close block).  The per-tick ratchet
the spec describes is the standalone server.py behaviour: its loop, on every
tick with an open position, a security id and a positive price, stores the
price and runs the trailing engine, whose ratchet recomputes the highest
profit as `max highest_profit (price - entry_price)`. -/
theorem tick_ratchet_amended (cfg : Config) (env : TickEnv) (s : BotState)
    (f : ℚ) (pos : Position)
    (hforce : env.force_squareoff = false)
    (hnb : env.now - s.candle_start_time < cfg.candle_interval)
    (hP : s.current_position = some pos) (hsec : pos.security_id ≠ "")
    (hf : f > 0) :
    ((loop_step cfg env s).trailing_sl = s.trailing_sl ∧
     (loop_step cfg env s).highest_profit = s.highest_profit) ∧
    server_tick_position_update cfg s f =
      server_check_trailing_sl cfg { s with current_option_ltp := f } f ∧
    (check_trailing_sl cfg s f).highest_profit =
      max s.highest_profit (f - s.entry_price) := by
  refine ⟨loop_step_no_boundary cfg env s hforce hnb, ?_, ?_⟩
  · unfold server_tick_position_update
    rw [hP]
    try dsimp only
    rw [if_pos hsec, if_pos hf]
  · have hmax : (if f - s.entry_price > s.highest_profit then f - s.entry_price
        else s.highest_profit) = max s.highest_profit (f - s.entry_price) := by
      rcases le_or_lt (f - s.entry_price) s.highest_profit with h | h
      · rw [if_neg (not_lt.mpr h), max_eq_left h]
      · rw [if_pos h, max_eq_right h.le]
    unfold check_trailing_sl
    rw [hP]
    try dsimp only
    rw [hmax]
    (repeat' split) <;> rfl

/-- Witness for the amended C8 at the concrete tick of the counterexample. -/
theorem tick_ratchet_amended_witness :
    (((loop_step sampleConfig c8_env c8_s).trailing_sl = c8_s.trailing_sl ∧
      (loop_step sampleConfig c8_env c8_s).highest_profit = c8_s.highest_profit) ∧
     server_tick_position_update sampleConfig c8_s 130 =
       server_check_trailing_sl sampleConfig
         { c8_s with current_option_ltp := 130 } 130 ∧
     (check_trailing_sl sampleConfig c8_s 130).highest_profit =
       max c8_s.highest_profit (130 - c8_s.entry_price)) :=
  tick_ratchet_amended sampleConfig c8_env c8_s 130 samplePosition rfl
    (by norm_num [c8_env, c8_s, baseState, sampleConfig]) rfl
    (by decide) (by norm_num)
